import Mathlib

/-!
# Stock Ledger & Valuation/Workflow Engine — verification development

Shallow embedding of the inventory/stock core of the ERP backend:
* `backend/services/inventory/routes.py` (item creation, opening-stock ledger append),
* `backend/services/transactions/routes.py` (sale/issue/return transactions),
* `backend/services/stock/routes.py` (ledger query, adjustments, reconciliations).

Modelling conventions:
* MongoDB collections become Lean lists kept in insertion order inside a `DB` record.
* Python `int` fields are `Int`; `float` money/weight fields are `ℚ` (exact arithmetic
  idealisation of the float arithmetic in the source).
* `uuid4` document ids are modelled by a monotone `next_id` counter, and
  `datetime.now(timezone.utc)` timestamps by a monotone `clock` counter
  (`created_at` fields), so "sorted by creation time" is the stored list order.
* `datetime.now().year` is the constant `year` field of the `DB`.
* FastAPI handlers become pure functions `DB → ... → Except Err α × DB`; an
  `HTTPException` is an `Err` value, and the returned `DB` is the state the
  handler leaves behind (which is *not* always the initial one — the handlers
  mutate the store as they go).
-/

namespace ERP

-- Rational arithmetic must evaluate inside `decide` witnesses below; Batteries
-- marks the `Rat` operations irreducible, which only blocks the elaborator.
set_option allowUnsafeReducibility true
attribute [local semireducible] Rat.add Rat.mul Rat.sub Rat.neg Rat.div Rat.inv

/-- Error outcomes of the HTTP handlers (`HTTPException`s and the Python
`NameError` reachable in `create_transaction`). -/
inductive Err where
  | notFound
  | invalidState
  | insufficientQuantity
  | duplicateDesignCode
  | duplicateName
  | categoryNotFound
  | unboundLocalLedgerEntry
deriving DecidableEq

/-- `Category` document (`shared/models.py`). -/
structure Category where
  id : Nat
  name : String
  description : Option String
  created_at : Nat
deriving DecidableEq

/-- `JewelleryItem` document (`shared/models.py`); only the fields the stock core
reads or writes are modelled (presentation-only fields such as images and QR
codes are omitted). -/
structure Item where
  id : Nat
  name : String
  category_id : Nat
  weight : ℚ
  purity : String
  metal_type : String
  design_code : String
  selling_price : ℚ
  quantity : Int
  status : String
  created_at : Nat
deriving DecidableEq

/-- `StockLedgerEntry` document (`shared/models.py`). -/
structure LedgerEntry where
  id : Nat
  item_id : Nat
  item_name : String
  design_code : String
  metal_type : String
  purity : String
  transaction_type : String
  reference_type : String
  reference_id : Option Nat
  quantity_in : Int
  quantity_out : Int
  weight_in : ℚ
  weight_out : ℚ
  unit_cost : ℚ
  total_value : ℚ
  running_quantity : Int
  running_weight : ℚ
  running_value : ℚ
  valuation_method : String
  notes : Option String
  created_by : String
  created_at : Nat
deriving DecidableEq

/-- `StockAdjustmentItem` (`shared/models.py`): one adjustment line, all fields
client-supplied on creation. -/
structure StockAdjustmentItem where
  item_id : Nat
  item_name : String
  design_code : String
  metal_type : String
  purity : String
  system_quantity : Int
  system_weight : ℚ
  adjusted_quantity : Int
  adjusted_weight : ℚ
  quantity_difference : Int
  weight_difference : ℚ
  unit_cost : ℚ
  value_difference : ℚ
deriving DecidableEq

/-- `StockAdjustment` document (`shared/models.py`). -/
structure StockAdjustment where
  id : Nat
  adjustment_number : String
  adjustment_type : String
  reason : String
  status : String
  items : List StockAdjustmentItem
  total_quantity_adjusted : Int
  total_weight_adjusted : ℚ
  total_value_adjusted : ℚ
  notes : Option String
  approved_by : Option String
  approved_at : Option Nat
  created_by : String
  created_at : Nat
deriving DecidableEq

/-- One stored reconciliation count line (the dicts built in
`create_stock_reconciliation`). -/
structure ReconciliationItem where
  item_id : Nat
  item_name : String
  design_code : String
  metal_type : String
  purity : String
  system_quantity : Int
  physical_quantity : Int
  difference : Int
  unit_price : ℚ
  value_difference : ℚ
deriving DecidableEq

/-- `StockReconciliation` document (`shared/models.py`). -/
structure StockReconciliation where
  id : Nat
  reconciliation_number : String
  status : String
  items : List ReconciliationItem
  total_items_counted : Nat
  total_discrepancies : Nat
  total_value_discrepancy : ℚ
  notes : Option String
  created_by : String
  completed_by : Option String
  completed_at : Option Nat
  created_at : Nat
deriving DecidableEq

/-- `Transaction` document (`shared/models.py`). -/
structure Txn where
  id : Nat
  transaction_type : String
  item_id : Nat
  quantity : Int
  amount : Option ℚ
  notes : Option String
  created_by : String
  created_at : Nat
deriving DecidableEq

/-- `JewelleryItemCreate` request payload (modelled fields only). -/
structure JewelleryItemCreate where
  name : String
  category_id : Nat
  weight : ℚ
  purity : String
  metal_type : String
  design_code : String
  selling_price : ℚ
  quantity : Int
deriving DecidableEq

/-- `TransactionCreate` request payload. -/
structure TransactionCreate where
  transaction_type : String
  item_id : Nat
  quantity : Int
  amount : Option ℚ
  notes : Option String
deriving DecidableEq

/-- `StockAdjustmentCreate` request payload. -/
structure StockAdjustmentCreate where
  adjustment_type : String
  reason : String
  items : List StockAdjustmentItem
  notes : Option String
deriving DecidableEq

/-- One input dict of `StockReconciliationCreate.items`. -/
structure ReconciliationItemInput where
  item_id : Nat
  physical_quantity : Int
deriving DecidableEq

/-- `StockReconciliationCreate` request payload. -/
structure StockReconciliationCreate where
  items : List ReconciliationItemInput
  notes : Option String
deriving DecidableEq

/-- The MongoDB database (`get_database()`), restricted to the collections the
stock core touches, plus the id/clock counters of the modelling conventions. -/
structure DB where
  categories : List Category
  items : List Item
  stock_ledger : List LedgerEntry
  stock_adjustments : List StockAdjustment
  stock_reconciliations : List StockReconciliation
  transactions : List Txn
  next_id : Nat
  clock : Nat
  year : Nat
deriving DecidableEq

/-- `update_one` on a Mongo collection: rewrite the first document matching the
filter, leave the rest untouched. -/
def updateFirst (p : α → Bool) (f : α → α) : List α → List α
  | [] => []
  | x :: xs => if p x then f x :: xs else x :: updateFirst p f xs

/-- `db.items.find_one({"id": iid})`. -/
def find_item (its : List Item) (iid : Nat) : Option Item :=
  its.find? (fun it => decide (it.id = iid))

/-- `db.items.update_one({"id": iid}, {"$set": {"quantity": q}})`. -/
def set_item_quantity (its : List Item) (iid : Nat) (q : Int) : List Item :=
  updateFirst (fun it => decide (it.id = iid)) (fun it => { it with quantity := q }) its

/-- The document with the greatest `created_at` in a list (Mongo
`find_one(..., sort=[("created_at", -1)])` on the filtered collection). -/
def maxByCreated : List LedgerEntry → Option LedgerEntry
  | [] => none
  | e :: es =>
    match maxByCreated es with
    | none => some e
    | some m => if m.created_at ≤ e.created_at then some e else some m

/-- All ledger entries of one item, in stored (= chronological) order:
`db.stock_ledger.filter({"item_id": iid})`. -/
def ledgerFor (led : List LedgerEntry) (iid : Nat) : List LedgerEntry :=
  led.filter (fun e => decide (e.item_id = iid))

/-- Python `f"{n:05d}"`: decimal digits of `n` left-padded with zeros to width 5. -/
def pad5 (n : Nat) : String :=
  let s := toString n
  String.mk (List.replicate (5 - s.length) '0') ++ s

/-- `f"ADJ-{year}-{(count + 1):05d}"`. -/
def adjNumber (year n : Nat) : String :=
  "ADJ-" ++ toString year ++ "-" ++ pad5 n

/-- `f"REC-{year}-{(count + 1):05d}"`. -/
def recNumber (year n : Nat) : String :=
  "REC-" ++ toString year ++ "-" ++ pad5 n

/-! ## Operations (the route handlers, translated from the source) -/

/-- `create_category` (`inventory/routes.py`): append a `Category` document. -/
def create_category (db : DB) (name : String) (description : Option String) :
    Except Err Category × DB :=
  let cat : Category :=
    { id := db.next_id, name := name, description := description, created_at := db.clock }
  (.ok cat,
   { db with categories := db.categories ++ [cat],
             next_id := db.next_id + 1, clock := db.clock + 1 })

/-- `create_stock_ledger_entry` (`inventory/routes.py` 133–180): seed running
balances from the most recent existing entry of the item (none ⇒ the supplied
deltas), compute `total_value` asymmetrically, append an immutable entry. -/
def create_stock_ledger_entry (db : DB) (item : Item)
    (transaction_type reference_type : String)
    (quantity_in quantity_out : Int) (weight_in weight_out unit_cost : ℚ)
    (reference_id : Option Nat) (notes : Option String) (created_by : String) :
    LedgerEntry × DB :=
  let last := maxByCreated (ledgerFor db.stock_ledger item.id)
  let running_quantity :=
    match last with
    | some le => le.running_quantity + quantity_in - quantity_out
    | none => quantity_in - quantity_out
  let running_weight :=
    match last with
    | some le => le.running_weight + weight_in - weight_out
    | none => weight_in - weight_out
  let running_value :=
    match last with
    | some le => le.running_value + (quantity_in : ℚ) * unit_cost - (quantity_out : ℚ) * unit_cost
    | none => (quantity_in : ℚ) * unit_cost - (quantity_out : ℚ) * unit_cost
  let total_value := if 0 < quantity_in then (quantity_in : ℚ) * unit_cost
                     else (quantity_out : ℚ) * unit_cost
  let e : LedgerEntry :=
    { id := db.next_id, item_id := item.id, item_name := item.name,
      design_code := item.design_code, metal_type := item.metal_type, purity := item.purity,
      transaction_type := transaction_type, reference_type := reference_type,
      reference_id := reference_id,
      quantity_in := quantity_in, quantity_out := quantity_out,
      weight_in := weight_in, weight_out := weight_out,
      unit_cost := unit_cost, total_value := total_value,
      running_quantity := running_quantity, running_weight := running_weight,
      running_value := running_value,
      valuation_method := "weighted_average", notes := notes,
      created_by := created_by, created_at := db.clock }
  (e, { db with stock_ledger := db.stock_ledger ++ [e],
                next_id := db.next_id + 1, clock := db.clock + 1 })

/-- Character-wise lowercase (the case-insensitive `$regex` name match of
`create_item`; `String.toLower` restated through the character list so that it
evaluates). -/
def lowerStr (s : String) : String := ⟨s.data.map Char.toLower⟩

/-- `create_item` (`inventory/routes.py` 89–131): duplicate design-code check,
case-insensitive duplicate name check, category check, insert the item, then
append the opening-stock ledger entry. -/
def create_item (db : DB) (d : JewelleryItemCreate) (actor : String) :
    Except Err Item × DB :=
  if (db.items.find? (fun it => decide (it.design_code = d.design_code))).isSome then
    (.error .duplicateDesignCode, db)
  else if (db.items.find? (fun it => decide (lowerStr it.name = lowerStr d.name))).isSome then
    (.error .duplicateName, db)
  else if (db.categories.find? (fun c => decide (c.id = d.category_id))).isNone then
    (.error .categoryNotFound, db)
  else
    let item : Item :=
      { id := db.next_id, name := d.name, category_id := d.category_id,
        weight := d.weight, purity := d.purity, metal_type := d.metal_type,
        design_code := d.design_code, selling_price := d.selling_price,
        quantity := d.quantity, status := "available", created_at := db.clock }
    let db1 := { db with items := db.items ++ [item],
                         next_id := db.next_id + 1, clock := db.clock + 1 }
    let r := create_stock_ledger_entry db1 item "opening" "opening_stock"
      d.quantity 0 (d.weight * (d.quantity : ℚ)) 0 d.selling_price none none actor
    (.ok item, r.2)

/-- The tail of `create_transaction` (`transactions/routes.py` 87–96): insert the
`Transaction` document, then — when a ledger entry was created — stamp it with
the transaction id. -/
def insert_transaction (db : DB) (d : TransactionCreate) (actor : String) : Txn × DB :=
  let t : Txn :=
    { id := db.next_id, transaction_type := d.transaction_type, item_id := d.item_id,
      quantity := d.quantity, amount := d.amount, notes := d.notes,
      created_by := actor, created_at := db.clock }
  (t, { db with transactions := db.transactions ++ [t],
                next_id := db.next_id + 1, clock := db.clock + 1 })

/-- `create_transaction` (`transactions/routes.py` 18–98).  `sale`/`issue`
decrement stock behind an insufficient-quantity guard and append a ledger entry;
`return` increments stock and appends; any other `transaction_type` falls
through both branches, persists the `Transaction`, and then hits the unbound
local `ledger_entry` (a Python `NameError` — modelled as
`Err.unboundLocalLedgerEntry`) with the transaction already stored. -/
def create_transaction (db : DB) (d : TransactionCreate) (actor : String) :
    Except Err Txn × DB :=
  match find_item db.items d.item_id with
  | none => (.error .notFound, db)
  | some item =>
    if d.transaction_type = "sale" ∨ d.transaction_type = "issue" then
      if item.quantity < d.quantity then (.error .insufficientQuantity, db)
      else
        let new_quantity := item.quantity - d.quantity
        let db1 := { db with items := set_item_quantity db.items d.item_id new_quantity }
        let e : LedgerEntry :=
          { id := db1.next_id, item_id := item.id, item_name := item.name,
            design_code := item.design_code, metal_type := item.metal_type,
            purity := item.purity,
            transaction_type := d.transaction_type, reference_type := "transaction",
            reference_id := none,
            quantity_in := 0, quantity_out := d.quantity,
            weight_in := 0, weight_out := item.weight * (d.quantity : ℚ),
            unit_cost := item.selling_price,
            total_value := item.selling_price * (d.quantity : ℚ),
            running_quantity := new_quantity,
            running_weight := (new_quantity : ℚ) * item.weight,
            running_value := (new_quantity : ℚ) * item.selling_price,
            valuation_method := "weighted_average", notes := d.notes,
            created_by := actor, created_at := db1.clock }
        let db2 := { db1 with stock_ledger := db1.stock_ledger ++ [e],
                              next_id := db1.next_id + 1, clock := db1.clock + 1 }
        let r := insert_transaction db2 d actor
        let led3 := updateFirst (fun x => decide (x.id = e.id))
          (fun x => { x with reference_id := some r.1.id }) r.2.stock_ledger
        (.ok r.1, { r.2 with stock_ledger := led3 })
    else if d.transaction_type = "return" then
      let new_quantity := item.quantity + d.quantity
      let db1 := { db with items := set_item_quantity db.items d.item_id new_quantity }
      let e : LedgerEntry :=
        { id := db1.next_id, item_id := item.id, item_name := item.name,
          design_code := item.design_code, metal_type := item.metal_type,
          purity := item.purity,
          transaction_type := "return", reference_type := "transaction",
          reference_id := none,
          quantity_in := d.quantity, quantity_out := 0,
          weight_in := item.weight * (d.quantity : ℚ), weight_out := 0,
          unit_cost := item.selling_price,
          total_value := item.selling_price * (d.quantity : ℚ),
          running_quantity := new_quantity,
          running_weight := (new_quantity : ℚ) * item.weight,
          running_value := (new_quantity : ℚ) * item.selling_price,
          valuation_method := "weighted_average", notes := d.notes,
          created_by := actor, created_at := db1.clock }
      let db2 := { db1 with stock_ledger := db1.stock_ledger ++ [e],
                            next_id := db1.next_id + 1, clock := db1.clock + 1 }
      let r := insert_transaction db2 d actor
      let led3 := updateFirst (fun x => decide (x.id = e.id))
        (fun x => { x with reference_id := some r.1.id }) r.2.stock_ledger
      (.ok r.1, { r.2 with stock_ledger := led3 })
    else
      -- neither branch assigned `ledger_entry`: the transaction is inserted and
      -- then `db.stock_ledger.update_one({"id": ledger_entry["id"]}, ...)` raises
      let r := insert_transaction db d actor
      (.error .unboundLocalLedgerEntry, r.2)

/-- The per-line existence check of `create_stock_adjustment` (404 on the first
line whose item is missing; nothing persisted in that case). -/
def checkAdjustmentItems (its : List Item) : List StockAdjustmentItem → Except Err Unit
  | [] => .ok ()
  | l :: ls =>
    match find_item its l.item_id with
    | none => .error .notFound
    | some _ => checkAdjustmentItems its ls

/-- `create_stock_adjustment` (`stock/routes.py` 215–260): count-based sequence
number, per-line item existence check, `Σ|difference|` aggregates, persisted
with status `pending` (the `StockAdjustment` model default). -/
def create_stock_adjustment (db : DB) (d : StockAdjustmentCreate) (actor : String) :
    Except Err StockAdjustment × DB :=
  let count := db.stock_adjustments.length
  let number := adjNumber db.year (count + 1)
  match checkAdjustmentItems db.items d.items with
  | .error e => (.error e, db)
  | .ok _ =>
    let adj : StockAdjustment :=
      { id := db.next_id, adjustment_number := number,
        adjustment_type := d.adjustment_type, reason := d.reason, status := "pending",
        items := d.items,
        total_quantity_adjusted := (d.items.map (fun l => |l.quantity_difference|)).sum,
        total_weight_adjusted := (d.items.map (fun l => |l.weight_difference|)).sum,
        total_value_adjusted := (d.items.map (fun l => |l.value_difference|)).sum,
        notes := d.notes, approved_by := none, approved_at := none,
        created_by := actor, created_at := db.clock }
    (.ok adj,
     { db with stock_adjustments := db.stock_adjustments ++ [adj],
               next_id := db.next_id + 1, clock := db.clock + 1 })

/-- One iteration of the apply loop of `approve_stock_adjustment`
(`stock/routes.py` 317–354): if the line's item exists, overwrite its quantity
with `adjusted_quantity` and append an `adjustment` ledger entry; otherwise the
line is silently skipped. -/
def applyAdjustmentLine (adjId : Nat) (reason actor : String)
    (db : DB) (l : StockAdjustmentItem) : DB :=
  match find_item db.items l.item_id with
  | none => db
  | some item =>
    let new_quantity := l.adjusted_quantity
    let db1 := { db with items := set_item_quantity db.items l.item_id new_quantity }
    let qd := l.quantity_difference
    let wd := l.weight_difference
    let e : LedgerEntry :=
      { id := db1.next_id, item_id := item.id, item_name := item.name,
        design_code := item.design_code, metal_type := item.metal_type,
        purity := item.purity,
        transaction_type := "adjustment", reference_type := "stock_adjustment",
        reference_id := some adjId,
        quantity_in := if 0 < qd then qd else 0,
        quantity_out := if qd < 0 then |qd| else 0,
        weight_in := if 0 < wd then wd else 0,
        weight_out := if wd < 0 then |wd| else 0,
        unit_cost := l.unit_cost, total_value := |l.value_difference|,
        running_quantity := new_quantity,
        running_weight := (new_quantity : ℚ) * item.weight,
        running_value := (new_quantity : ℚ) * item.selling_price,
        valuation_method := "weighted_average",
        notes := some ("Stock adjustment: " ++ reason),
        created_by := actor, created_at := db1.clock }
    { db1 with stock_ledger := db1.stock_ledger ++ [e],
               next_id := db1.next_id + 1, clock := db1.clock + 1 }

/-- `db.stock_adjustments.find_one({"id": adjId})`. -/
def find_adjustment (db : DB) (adjId : Nat) : Option StockAdjustment :=
  db.stock_adjustments.find? (fun a => decide (a.id = adjId))

/-- `approve_stock_adjustment` (`stock/routes.py` 303–366): requires status
`pending`, applies every line, then marks the adjustment `completed` with
approver and timestamp; the response is a constant success message. -/
def approve_stock_adjustment (db : DB) (adjId : Nat) (actor : String) :
    Except Err String × DB :=
  match find_adjustment db adjId with
  | none => (.error .notFound, db)
  | some adj =>
    if adj.status ≠ "pending" then (.error .invalidState, db)
    else
      let db1 := adj.items.foldl (applyAdjustmentLine adjId adj.reason actor) db
      let adjs := updateFirst (fun a => decide (a.id = adjId))
        (fun a => { a with status := "completed", approved_by := some actor,
                           approved_at := some db1.clock }) db1.stock_adjustments
      (.ok "Adjustment approved and applied successfully",
       { db1 with stock_adjustments := adjs, clock := db1.clock + 1 })

/-- `reject_stock_adjustment` (`stock/routes.py` 368–386): requires status
`pending`, sets status `rejected`, touches nothing else. -/
def reject_stock_adjustment (db : DB) (adjId : Nat) (_actor : String) :
    Except Err String × DB :=
  match find_adjustment db adjId with
  | none => (.error .notFound, db)
  | some adj =>
    if adj.status ≠ "pending" then (.error .invalidState, db)
    else
      let adjs := updateFirst (fun a => decide (a.id = adjId))
        (fun a => { a with status := "rejected" }) db.stock_adjustments
      (.ok "Adjustment rejected", { db with stock_adjustments := adjs })

/-- The line-building loop of `create_stock_reconciliation` (`stock/routes.py`
403–429): lines whose item is missing are silently skipped; `difference` and
`value_difference` are computed from the item's current state. -/
def buildReconciliationItems (its : List Item) :
    List ReconciliationItemInput → List ReconciliationItem
  | [] => []
  | i :: is =>
    match find_item its i.item_id with
    | none => buildReconciliationItems its is
    | some item =>
      let system_qty := item.quantity
      let physical_qty := i.physical_quantity
      let difference := physical_qty - system_qty
      let value_diff := (difference : ℚ) * item.selling_price
      { item_id := item.id, item_name := item.name, design_code := item.design_code,
        metal_type := item.metal_type, purity := item.purity,
        system_quantity := system_qty, physical_quantity := physical_qty,
        difference := difference, unit_price := item.selling_price,
        value_difference := value_diff } :: buildReconciliationItems its is

/-- `create_stock_reconciliation` (`stock/routes.py` 390–447). -/
def create_stock_reconciliation (db : DB) (d : StockReconciliationCreate) (actor : String) :
    Except Err StockReconciliation × DB :=
  let count := db.stock_reconciliations.length
  let number := recNumber db.year (count + 1)
  let items_list := buildReconciliationItems db.items d.items
  let rec_ : StockReconciliation :=
    { id := db.next_id, reconciliation_number := number, status := "draft",
      items := items_list,
      total_items_counted := items_list.length,
      total_discrepancies := (items_list.filter (fun l => decide (l.difference ≠ 0))).length,
      total_value_discrepancy :=
        ((items_list.filter (fun l => decide (l.difference ≠ 0))).map
          (fun l => |l.value_difference|)).sum,
      notes := d.notes, created_by := actor,
      completed_by := none, completed_at := none, created_at := db.clock }
  (.ok rec_,
   { db with stock_reconciliations := db.stock_reconciliations ++ [rec_],
             next_id := db.next_id + 1, clock := db.clock + 1 })

/-- `db.stock_reconciliations.find_one({"id": recId})`. -/
def find_reconciliation (db : DB) (recId : Nat) : Option StockReconciliation :=
  db.stock_reconciliations.find? (fun r => decide (r.id = recId))

/-- One synthesized adjustment line of `complete_stock_reconciliation`
(`stock/routes.py` 503–518), built from a stored reconciliation line and the
item's current record. -/
def buildReconAdjustmentItem (rl : ReconciliationItem) (dbItem : Item) :
    StockAdjustmentItem :=
  { item_id := rl.item_id, item_name := rl.item_name, design_code := rl.design_code,
    metal_type := rl.metal_type, purity := rl.purity,
    system_quantity := rl.system_quantity,
    system_weight := (rl.system_quantity : ℚ) * dbItem.weight,
    adjusted_quantity := rl.physical_quantity,
    adjusted_weight := (rl.physical_quantity : ℚ) * dbItem.weight,
    quantity_difference := rl.difference,
    weight_difference := (rl.difference : ℚ) * dbItem.weight,
    unit_cost := rl.unit_price,
    value_difference := rl.value_difference }

/-- The synthesis loop of `complete_stock_reconciliation` (`stock/routes.py`
498–518): one adjustment line per stored reconciliation line with non-zero
difference whose item still exists. -/
def buildReconAdjustmentItems (its : List Item) :
    List ReconciliationItem → List StockAdjustmentItem
  | [] => []
  | rl :: rls =>
    if rl.difference ≠ 0 then
      match find_item its rl.item_id with
      | none => buildReconAdjustmentItems its rls
      | some it => buildReconAdjustmentItem rl it :: buildReconAdjustmentItems its rls
    else buildReconAdjustmentItems its rls

/-- One iteration of the apply loop of `complete_stock_reconciliation`
(`stock/routes.py` 555–588): overwrite the item quantity, then (if the item
exists) append a `reconciliation`-referenced ledger entry. -/
def applyReconciliationLine (recId : Nat) (actor : String)
    (db : DB) (l : StockAdjustmentItem) : DB :=
  let db1 := { db with items := set_item_quantity db.items l.item_id l.adjusted_quantity }
  match find_item db1.items l.item_id with
  | none => db1
  | some _dbItem =>
    let e : LedgerEntry :=
      { id := db1.next_id, item_id := l.item_id, item_name := l.item_name,
        design_code := l.design_code, metal_type := l.metal_type, purity := l.purity,
        transaction_type := "adjustment", reference_type := "reconciliation",
        reference_id := some recId,
        quantity_in := if 0 < l.quantity_difference then l.quantity_difference else 0,
        quantity_out := if l.quantity_difference < 0 then |l.quantity_difference| else 0,
        weight_in := if 0 < l.weight_difference then l.weight_difference else 0,
        weight_out := if l.weight_difference < 0 then |l.weight_difference| else 0,
        unit_cost := l.unit_cost, total_value := |l.value_difference|,
        running_quantity := l.adjusted_quantity,
        running_weight := l.adjusted_weight,
        running_value := (l.adjusted_quantity : ℚ) * l.unit_cost,
        valuation_method := "weighted_average",
        notes := some "Stock reconciliation adjustment",
        created_by := actor, created_at := db1.clock }
    { db1 with stock_ledger := db1.stock_ledger ++ [e],
               next_id := db1.next_id + 1, clock := db1.clock + 1 }

/-- `complete_stock_reconciliation` (`stock/routes.py` 484–600): refuses an
already-`completed` reconciliation; synthesizes one auto-approved (`completed`)
adjustment covering the non-zero-difference lines (none ⇒ no adjustment, no
ledger write); applies every synthesized line; marks the reconciliation
`completed` with completer and timestamp; constant success message. -/
def complete_stock_reconciliation (db : DB) (recId : Nat) (actor : String) :
    Except Err String × DB :=
  match find_reconciliation db recId with
  | none => (.error .notFound, db)
  | some rec_ =>
    if rec_.status = "completed" then (.error .invalidState, db)
    else
      let adjustment_items := buildReconAdjustmentItems db.items rec_.items
      let db1 :=
        if adjustment_items.isEmpty then db
        else
          let count := db.stock_adjustments.length
          let number := adjNumber db.year (count + 1)
          let adj : StockAdjustment :=
            { id := db.next_id, adjustment_number := number,
              adjustment_type := "reconciliation", reason := "count_correction",
              status := "completed", items := adjustment_items,
              total_quantity_adjusted :=
                (adjustment_items.map (fun l => |l.quantity_difference|)).sum,
              total_weight_adjusted :=
                (adjustment_items.map (fun l => |l.weight_difference|)).sum,
              total_value_adjusted :=
                (adjustment_items.map (fun l => |l.value_difference|)).sum,
              notes := some ("Auto-generated from reconciliation "
                ++ rec_.reconciliation_number),
              approved_by := some actor, approved_at := some db.clock,
              created_by := actor, created_at := db.clock }
          let dbA := { db with stock_adjustments := db.stock_adjustments ++ [adj],
                               next_id := db.next_id + 1, clock := db.clock + 1 }
          adjustment_items.foldl (applyReconciliationLine recId actor) dbA
      let recs := updateFirst (fun r => decide (r.id = recId))
        (fun r => { r with status := "completed", completed_by := some actor,
                           completed_at := some db1.clock }) db1.stock_reconciliations
      (.ok "Reconciliation completed and adjustments applied",
       { db1 with stock_reconciliations := recs, clock := db1.clock + 1 })

/-! ## The ledger query endpoint -/

/-- The filter parameters of `get_stock_ledger` (dates are the monotone clock,
standing for the lexicographically comparable ISO timestamps). -/
structure LedgerQuery where
  item_id : Option Nat
  metal_type : Option String
  purity : Option String
  transaction_type : Option String
  start_date : Option Nat
  end_date : Option Nat
deriving DecidableEq

/-- The Mongo filter document assembled in `get_stock_ledger` 31–47. -/
def matchesQuery (q : LedgerQuery) (e : LedgerEntry) : Bool :=
  (match q.item_id with | none => true | some v => decide (e.item_id = v)) &&
  (match q.metal_type with | none => true | some v => decide (e.metal_type = v)) &&
  (match q.purity with | none => true | some v => decide (e.purity = v)) &&
  (match q.transaction_type with | none => true | some v => decide (e.transaction_type = v)) &&
  (match q.start_date with | none => true | some v => decide (v ≤ e.created_at)) &&
  (match q.end_date with | none => true | some v => decide (e.created_at ≤ v))

/-- The newer-first ordering used by `.sort("created_at", -1)`. -/
def newerFirst (a b : LedgerEntry) : Prop := b.created_at ≤ a.created_at

instance : DecidableRel newerFirst := fun a b => Nat.decLe b.created_at a.created_at

instance : IsTotal LedgerEntry newerFirst :=
  ⟨fun a b => Nat.le_total b.created_at a.created_at⟩

instance : IsTrans LedgerEntry newerFirst :=
  ⟨fun _ _ _ h1 h2 => Nat.le_trans h2 h1⟩

/-- The response shape of `get_stock_ledger`. -/
structure LedgerPage where
  entries : List LedgerEntry
  total : Nat
  page : Nat
  limit : Nat
  total_pages : Nat
deriving DecidableEq

/-- `get_stock_ledger` (`stock/routes.py` 18–59): filter, count, sort newest
first, `skip((page-1)*limit).limit(limit)`, and `total_pages = (total + limit - 1) // limit`. -/
def get_stock_ledger (db : DB) (q : LedgerQuery) (page limit : Nat) : LedgerPage :=
  let matching := db.stock_ledger.filter (matchesQuery q)
  let total := matching.length
  let sorted := matching.insertionSort newerFirst
  let skip := (page - 1) * limit
  { entries := (sorted.drop skip).take limit,
    total := total, page := page, limit := limit,
    total_pages := (total + limit - 1) / limit }

/-! ## Core operations as a step relation -/

/-- One core operation of the stock engine (the funnel of §2 of the spec),
together with the master-data creations needed to reach interesting states. -/
inductive Op where
  | createCategory (name : String) (description : Option String)
  | createItem (d : JewelleryItemCreate) (actor : String)
  | createTransaction (d : TransactionCreate) (actor : String)
  | createAdjustment (d : StockAdjustmentCreate) (actor : String)
  | approveAdjustment (adjId : Nat) (actor : String)
  | rejectAdjustment (adjId : Nat) (actor : String)
  | createReconciliation (d : StockReconciliationCreate) (actor : String)
  | completeReconciliation (recId : Nat) (actor : String)
deriving DecidableEq

/-- The state each handler leaves behind (success or error alike). -/
def stepDB (db : DB) : Op → DB
  | .createCategory n de => (create_category db n de).2
  | .createItem d a => (create_item db d a).2
  | .createTransaction d a => (create_transaction db d a).2
  | .createAdjustment d a => (create_stock_adjustment db d a).2
  | .approveAdjustment i a => (approve_stock_adjustment db i a).2
  | .rejectAdjustment i a => (reject_stock_adjustment db i a).2
  | .createReconciliation d a => (create_stock_reconciliation db d a).2
  | .completeReconciliation i a => (complete_stock_reconciliation db i a).2

/-- Run a sequence of core operations. -/
def runOps (db : DB) (ops : List Op) : DB := ops.foldl stepDB db

/-- The empty store. -/
def initDB (year : Nat) : DB :=
  { categories := [], items := [], stock_ledger := [], stock_adjustments := [],
    stock_reconciliations := [], transactions := [], next_id := 0, clock := 0,
    year := year }

/-! ## Invariant checkers -/

/-- No duplicates in a key list. -/
def nodupKeys : List Nat → Bool
  | [] => true
  | k :: ks => !ks.contains k && nodupKeys ks

/-- Well-formedness of the store: every stored id is below the `next_id`
counter, item ids are pairwise distinct, and the ledger is stored in strictly
increasing `created_at` order below the clock (so stored order is creation
order). -/
def wfB (db : DB) : Bool :=
  db.items.all (fun it => decide (it.id < db.next_id)) &&
  db.stock_ledger.all (fun e => decide (e.id < db.next_id) &&
    decide (e.item_id < db.next_id) && decide (e.created_at < db.clock)) &&
  nodupKeys (db.items.map (·.id)) &&
  (db.stock_ledger.map (·.created_at)).Chain' (· < ·)

/-- The running-balance recurrence between two consecutive entries of one item's
chain: `running_X[n] = running_X[n-1] + in[n] - out[n]`, where the value delta
is `(quantity_in - quantity_out) * unit_cost` per the chained computation in
`create_stock_ledger_entry`. -/
def chainStepB (prev e : LedgerEntry) : Bool :=
  decide (e.running_quantity = prev.running_quantity + e.quantity_in - e.quantity_out) &&
  decide (e.running_weight = prev.running_weight + e.weight_in - e.weight_out) &&
  decide (e.running_value =
    prev.running_value + (e.quantity_in : ℚ) * e.unit_cost - (e.quantity_out : ℚ) * e.unit_cost)

/-- The base case of the chain: the first entry's running balances equal its own
deltas (implicit zero predecessor). -/
def baseEntryB (e : LedgerEntry) : Bool :=
  decide (e.running_quantity = e.quantity_in - e.quantity_out) &&
  decide (e.running_weight = e.weight_in - e.weight_out) &&
  decide (e.running_value = (e.quantity_in : ℚ) * e.unit_cost - (e.quantity_out : ℚ) * e.unit_cost)

/-- The chain recurrence along a list, seeded with a previous entry. -/
def chainFromB : LedgerEntry → List LedgerEntry → Bool
  | _, [] => true
  | prev, e :: es => chainStepB prev e && chainFromB e es

/-- A full chain: base case on the first entry, recurrence afterwards. -/
def chainOkB : List LedgerEntry → Bool
  | [] => true
  | e :: es => baseEntryB e && chainFromB e es

/-- C1's invariant over an item list and a ledger: every item's chain (in
creation order) satisfies the running-balance recurrence. -/
def chainInvL (its : List Item) (led : List LedgerEntry) : Bool :=
  its.all (fun it => chainOkB (ledgerFor led it.id))

/-- C1's invariant: every item's ledger chain (in creation order) satisfies the
running-balance recurrence. -/
def chainInvB (db : DB) : Bool :=
  chainInvL db.items db.stock_ledger

/-- Agreement of the Item Registry with the tail of the ledger: every item has a
most recent entry whose running balances are the item's current quantity, its
quantity times unit weight, and its quantity times selling price. -/
def agreeEntryB (it : Item) (e : LedgerEntry) : Bool :=
  decide (e.running_quantity = it.quantity) &&
  decide (e.running_weight = (it.quantity : ℚ) * it.weight) &&
  decide (e.running_value = (it.quantity : ℚ) * it.selling_price)

/-- Registry/ledger agreement over an item list and a ledger. -/
def agreeL (its : List Item) (led : List LedgerEntry) : Bool :=
  its.all (fun it =>
    match (ledgerFor led it.id).getLast? with
    | none => false
    | some e => agreeEntryB it e)

/-- Registry/ledger agreement over the whole store. -/
def agreeB (db : DB) : Bool :=
  agreeL db.items db.stock_ledger

/-- C2's invariant over an item list and a ledger. -/
def sumInvL (its : List Item) (led : List LedgerEntry) : Bool :=
  its.all (fun it =>
    decide (it.quantity =
      ((ledgerFor led it.id).map (fun e => e.quantity_in - e.quantity_out)).sum))

/-- C2's invariant: every item's current quantity is the sum of
`quantity_in - quantity_out` over its ledger entries. -/
def sumInvB (db : DB) : Bool :=
  sumInvL db.items db.stock_ledger

/-- C3's invariant: no item has negative quantity. -/
def nonNegB (db : DB) : Bool :=
  db.items.all (fun it => decide (0 ≤ it.quantity))

/-! ## Consistency of client-supplied adjustment data

The adjustment lines are persisted exactly as the client sent them, so the
differences need not match the store.  The checks below say that, at the moment
a line is applied, its recorded differences are honest with respect to the
item's current record. -/

/-- The item-registry effect of applying one adjustment or reconciliation line
(both loops overwrite the quantity of an existing item and do nothing for a
missing one). -/
def applyLineItems (its : List Item) (l : StockAdjustmentItem) : List Item :=
  match find_item its l.item_id with
  | none => its
  | some _ => set_item_quantity its l.item_id l.adjusted_quantity

/-- Full honesty of one adjustment line with respect to the current items:
the quantity difference is the overwrite delta, the weight difference and the
unit cost match the item's unit weight and selling price. -/
def adjLineOkB (its : List Item) (l : StockAdjustmentItem) : Bool :=
  match find_item its l.item_id with
  | none => true
  | some it =>
    decide (l.quantity_difference = l.adjusted_quantity - it.quantity) &&
    decide (l.weight_difference = (l.quantity_difference : ℚ) * it.weight) &&
    decide (l.unit_cost = it.selling_price)

/-- Honesty of a whole line list, each line judged against the items as mutated
by the preceding lines. -/
def adjLinesOkB : List Item → List StockAdjustmentItem → Bool
  | _, [] => true
  | its, l :: ls => adjLineOkB its l && adjLinesOkB (applyLineItems its l) ls

/-- Additional honesty needed for reconciliation-applied lines, whose ledger
entry takes `running_weight` from the recorded `adjusted_weight`. -/
def reconLineOkB (its : List Item) (l : StockAdjustmentItem) : Bool :=
  adjLineOkB its l &&
  (match find_item its l.item_id with
   | none => true
   | some it => decide (l.adjusted_weight = (l.adjusted_quantity : ℚ) * it.weight))

/-- Honesty of a reconciliation-synthesized line list. -/
def reconLinesOkB : List Item → List StockAdjustmentItem → Bool
  | _, [] => true
  | its, l :: ls => reconLineOkB its l && reconLinesOkB (applyLineItems its l) ls

/-- Consistency condition on one operation in one state, for the running-balance
chain invariant: adjustment approval and reconciliation completion must apply
honest lines; every other operation is unconditionally safe. -/
def opOkB (db : DB) : Op → Bool
  | .approveAdjustment adjId _ =>
    match find_adjustment db adjId with
    | none => true
    | some adj => if adj.status = "pending" then adjLinesOkB db.items adj.items else true
  | .completeReconciliation recId _ =>
    match find_reconciliation db recId with
    | none => true
    | some rec_ =>
      if rec_.status = "completed" then true
      else reconLinesOkB db.items (buildReconAdjustmentItems db.items rec_.items)
  | _ => true

/-- A run is consistent when each operation is consistent in the state it
executes in. -/
def consistentRunB (db : DB) : List Op → Bool
  | [] => true
  | op :: ops => opOkB db op && consistentRunB (stepDB db op) ops

/-- Quantity-only honesty of one adjustment line (what C2's registry-equals-sum
invariant needs). -/
def adjLineQtyOkB (its : List Item) (l : StockAdjustmentItem) : Bool :=
  match find_item its l.item_id with
  | none => true
  | some it => decide (l.quantity_difference = l.adjusted_quantity - it.quantity)

/-- Quantity-only honesty of a line list. -/
def adjLinesQtyOkB : List Item → List StockAdjustmentItem → Bool
  | _, [] => true
  | its, l :: ls => adjLineQtyOkB its l && adjLinesQtyOkB (applyLineItems its l) ls

/-- Quantity-only consistency of one operation (for C2). -/
def opQtyOkB (db : DB) : Op → Bool
  | .approveAdjustment adjId _ =>
    match find_adjustment db adjId with
    | none => true
    | some adj => if adj.status = "pending" then adjLinesQtyOkB db.items adj.items else true
  | .completeReconciliation recId _ =>
    match find_reconciliation db recId with
    | none => true
    | some rec_ =>
      if rec_.status = "completed" then true
      else adjLinesQtyOkB db.items (buildReconAdjustmentItems db.items rec_.items)
  | _ => true

/-- Quantity-only consistency of a run (for C2). -/
def qtyConsistentRunB (db : DB) : List Op → Bool
  | [] => true
  | op :: ops => opQtyOkB db op && qtyConsistentRunB (stepDB db op) ops

/-- Non-negativity condition on one operation (for C3): opening stock and
returned quantities are non-negative, and the target quantities of applied
adjustment/reconciliation lines are non-negative. -/
def opNonNegOkB (db : DB) : Op → Bool
  | .createItem d _ => decide (0 ≤ d.quantity)
  | .createTransaction d _ =>
    decide (d.transaction_type ≠ "return") || decide (0 ≤ d.quantity)
  | .approveAdjustment adjId _ =>
    match find_adjustment db adjId with
    | none => true
    | some adj => adj.items.all (fun l => decide (0 ≤ l.adjusted_quantity))
  | .completeReconciliation recId _ =>
    match find_reconciliation db recId with
    | none => true
    | some rec_ => rec_.items.all (fun rl => decide (0 ≤ rl.physical_quantity))
  | _ => true

/-- The combined inductive invariant for the chain claims. -/
def invB (db : DB) : Bool := wfB db && chainInvB db && agreeB db

/-- The combined inductive invariant for the registry-equals-ledger-sum claim. -/
def invQB (db : DB) : Bool := wfB db && sumInvB db

/-- Status of a stored adjustment, if any. -/
def adjStatus (db : DB) (adjId : Nat) : Option String :=
  (find_adjustment db adjId).map (·.status)

/-- Status of a stored reconciliation, if any. -/
def recStatus (db : DB) (recId : Nat) : Option String :=
  (find_reconciliation db recId).map (·.status)

/-- Number of lines of a stored adjustment (0 if absent). -/
def numAdjLines (db : DB) (adjId : Nat) : Nat :=
  match find_adjustment db adjId with
  | none => 0
  | some adj => adj.items.length

/-- Every line of the stored adjustment references an existing item. -/
def adjItemsExist (db : DB) (adjId : Nat) : Bool :=
  match find_adjustment db adjId with
  | none => false
  | some adj => adj.items.all (fun l => (find_item db.items l.item_id).isSome)

/-- The stored adjustment's lines reference pairwise distinct items. -/
def adjItemsNodup (db : DB) (adjId : Nat) : Bool :=
  match find_adjustment db adjId with
  | none => false
  | some adj => nodupKeys (adj.items.map (·.item_id))

/-- Every line of the stored reconciliation has zero difference. -/
def recAllZero (db : DB) (recId : Nat) : Bool :=
  match find_reconciliation db recId with
  | none => false
  | some rec_ => rec_.items.all (fun rl => decide (rl.difference = 0))

/-! ## Concrete scenarios (witness and counterexample inputs) -/

/-- A small item-creation payload: 10 pieces of 2 g at price 100. -/
def sampleItem : JewelleryItemCreate :=
  { name := "Ring", category_id := 0, weight := 2, purity := "22K", metal_type := "Gold",
    design_code := "D1", selling_price := 100, quantity := 10 }

/-- A client-supplied adjustment line whose recorded differences do not match
the overwrite it requests: it sets the quantity to 5 (from 10) but claims a
difference of only −3. -/
def dishonestLine : StockAdjustmentItem :=
  { item_id := 1, item_name := "Ring", design_code := "D1", metal_type := "Gold",
    purity := "22K", system_quantity := 10, system_weight := 20,
    adjusted_quantity := 5, adjusted_weight := 10,
    quantity_difference := -3, weight_difference := -6, unit_cost := 100,
    value_difference := -300 }

/-- Core-operation run applying `dishonestLine`: category, item with opening
stock 10 (ledger ids: category 0, item 1, opening entry 2, adjustment 3). -/
def dishonestRun : List Op :=
  [ .createCategory "Rings" none,
    .createItem sampleItem "clerk",
    .createAdjustment { adjustment_type := "decrease", reason := "damage",
                        items := [dishonestLine], notes := none } "clerk",
    .approveAdjustment 3 "boss" ]

/-- An adjustment line requesting a negative target quantity. -/
def negativeLine : StockAdjustmentItem :=
  { dishonestLine with adjusted_quantity := -5, adjusted_weight := -10,
                       quantity_difference := -15, weight_difference := -30,
                       value_difference := -1500 }

/-- The state just before approving the negative-target adjustment. -/
def negativePrefix : List Op :=
  [ .createCategory "Rings" none,
    .createItem sampleItem "clerk",
    .createAdjustment { adjustment_type := "decrease", reason := "damage",
                        items := [negativeLine], notes := none } "clerk" ]

/-- A `return` transaction carrying a negative quantity
(`TransactionCreate.quantity` is an unconstrained `int`). -/
def negativeReturn : TransactionCreate :=
  { transaction_type := "return", item_id := 1, quantity := -20, amount := none,
    notes := none }

/-- Just the category and the ten-piece item (ids: category 0, item 1,
opening entry 2). -/
def itemOnlyRun : List Op :=
  [ .createCategory "Rings" none,
    .createItem sampleItem "clerk" ]

/-- An honest run exercising every ledger-writing path: opening stock 10, sale
of 3, then a reconciliation counting 5 (ids: category 0, item 1, opening entry
2, sale entry 3, transaction 4, reconciliation 5, synthetic adjustment 6,
reconciliation entry 7). -/
def honestRun : List Op :=
  [ .createCategory "Rings" none,
    .createItem sampleItem "clerk",
    .createTransaction { transaction_type := "sale", item_id := 1, quantity := 3,
                         amount := none, notes := none } "clerk",
    .createReconciliation { items := [{ item_id := 1, physical_quantity := 5 }],
                            notes := none } "clerk",
    .completeReconciliation 5 "boss" ]

/-- An honest decrease-by-3 line for `sampleItem`. -/
def honestDecreaseLine : StockAdjustmentItem :=
  { item_id := 1, item_name := "Ring", design_code := "D1", metal_type := "Gold",
    purity := "22K", system_quantity := 10, system_weight := 20,
    adjusted_quantity := 7, adjusted_weight := 14,
    quantity_difference := -3, weight_difference := -6, unit_cost := 100,
    value_difference := -300 }

/-- The state with one pending adjustment over an existing item (ids: category
0, item 1, opening entry 2, adjustment 3). -/
def pendingAdjPrefix : List Op :=
  [ .createCategory "Rings" none,
    .createItem sampleItem "clerk",
    .createAdjustment { adjustment_type := "decrease", reason := "damage",
                        items := [honestDecreaseLine], notes := none } "clerk" ]

/-- An adjustment line referencing an item id (99) that does not exist. -/
def orphanLine : StockAdjustmentItem :=
  { item_id := 99, item_name := "Gone", design_code := "D9",
    metal_type := "Gold", purity := "22K", system_quantity := 4,
    system_weight := 8, adjusted_quantity := 1, adjusted_weight := 2,
    quantity_difference := -3, weight_difference := -6,
    unit_cost := 100, value_difference := -300 }

/-- A store whose only adjustment is `pending` but references an item id (99)
that no longer exists (the item was deleted through the out-of-core
`delete_item` endpoint). -/
def orphanedAdjDB : DB :=
  { categories := [], items := [], stock_ledger := [],
    stock_adjustments :=
      [{ id := 1, adjustment_number := "ADJ-2026-00001", adjustment_type := "decrease",
         reason := "loss", status := "pending",
         items := [orphanLine],
         total_quantity_adjusted := 3, total_weight_adjusted := 6,
         total_value_adjusted := 300, notes := none, approved_by := none,
         approved_at := none, created_by := "clerk", created_at := 10 }],
    stock_reconciliations := [], transactions := [], next_id := 100, clock := 50,
    year := 2026 }

/-- A reconciliation whose two count lines both match the system quantity
(difference 0), stored as `draft` (ids: category 0, item 1, opening entry 2,
reconciliation 3). -/
def zeroDiffRun : List Op :=
  [ .createCategory "Rings" none,
    .createItem sampleItem "clerk",
    .createReconciliation { items := [{ item_id := 1, physical_quantity := 10 }],
                            notes := none } "clerk" ]

/-- The reconciliation document stored by `zeroDiffRun` (id 3, one zero-difference
count line). -/
def zeroDiffRec : StockReconciliation :=
  { id := 3, reconciliation_number := "REC-2026-00001", status := "draft",
    items := [{ item_id := 1, item_name := "Ring", design_code := "D1",
                metal_type := "Gold", purity := "22K", system_quantity := 10,
                physical_quantity := 10, difference := 0, unit_price := 100,
                value_difference := 0 }],
    total_items_counted := 1, total_discrepancies := 0, total_value_discrepancy := 0,
    notes := none, created_by := "clerk", completed_by := none, completed_at := none,
    created_at := 3 }

/-- A second item payload for the ledger-query witness (ids in `queryRun`:
category 0, item 1, opening entry 2, item 3 (design D2), opening entry 4, sale
entry 5, transaction 6). -/
def secondItem : JewelleryItemCreate :=
  { sampleItem with name := "Chain9", design_code := "D2", metal_type := "Silver",
                    quantity := 4 }

/-- The sale payload used in `queryRun`. -/
def querySale : TransactionCreate :=
  { transaction_type := "sale", item_id := 1, quantity := 2, amount := none, notes := none }

/-- Build the two-item store with three ledger entries. -/
def queryRun : List Op :=
  [ .createCategory "Rings" none,
    .createItem sampleItem "clerk",
    .createItem secondItem "clerk",
    .createTransaction querySale "clerk" ]

/-- A filter for the ledger-query witness: gold entries only. -/
def goldQuery : LedgerQuery :=
  { item_id := none, metal_type := some "Gold", purity := none,
    transaction_type := none, start_date := none, end_date := none }

/-- A concrete reconciliation line / item pair for the C5 witness. -/
def c5Item : Item :=
  { id := 1, name := "Ring", category_id := 0, weight := 2, purity := "22K",
    metal_type := "Gold", design_code := "D1", selling_price := 100, quantity := 7,
    status := "available", created_at := 1 }

/-- The C5 witness store: just `c5Item`, no ledger yet. -/
def c5DB : DB :=
  { categories := [], items := [c5Item], stock_ledger := [], stock_adjustments := [],
    stock_reconciliations := [], transactions := [], next_id := 10, clock := 20,
    year := 2026 }

/-- A stored count line for `c5Item`: counted 5 against system 7. -/
def c5Line : ReconciliationItem :=
  { item_id := 1, item_name := "Ring", design_code := "D1", metal_type := "Gold",
    purity := "22K", system_quantity := 7, physical_quantity := 5, difference := -2,
    unit_price := 100, value_difference := -200 }

/-! ## Helper lemmas on `updateFirst`, `find_item` and `ledgerFor` -/

theorem updateFirst_of_no_match {p : α → Bool} {f : α → α} :
    ∀ {l : List α}, (∀ x ∈ l, p x = false) → updateFirst p f l = l
  | [], _ => rfl
  | x :: xs, h => by
    have hx : p x = false := h x (List.mem_cons_self x xs)
    simp only [updateFirst, hx, Bool.false_eq_true, if_false, List.cons.injEq, true_and]
    exact updateFirst_of_no_match fun y hy => h y (List.mem_cons_of_mem x hy)

theorem updateFirst_append_of_no_match {p : α → Bool} {f : α → α} :
    ∀ {xs : List α} (ys : List α), (∀ x ∈ xs, p x = false) →
      updateFirst p f (xs ++ ys) = xs ++ updateFirst p f ys
  | [], ys, _ => rfl
  | x :: xs, ys, h => by
    have hx : p x = false := h x (List.mem_cons_self x xs)
    simp only [List.cons_append, updateFirst, hx, Bool.false_eq_true, if_false,
      List.cons.injEq, true_and]
    exact updateFirst_append_of_no_match ys fun y hy => h y (List.mem_cons_of_mem x hy)

theorem map_updateFirst (p : α → Bool) (f : α → α) (g : α → β)
    (hg : ∀ x, g (f x) = g x) : ∀ (l : List α), (updateFirst p f l).map g = l.map g
  | [] => rfl
  | x :: xs => by
    by_cases hx : p x = true
    · simp [updateFirst, hx, hg]
    · have hx' : p x = false := eq_false_of_ne_true hx
      simp only [updateFirst, hx', Bool.false_eq_true, if_false, List.map_cons]
      rw [map_updateFirst p f g hg xs]

theorem mem_updateFirst {p : α → Bool} {f : α → α} :
    ∀ {l : List α} {y : α}, y ∈ updateFirst p f l →
      y ∈ l ∨ ∃ x ∈ l, p x = true ∧ y = f x
  | [], _, hy => absurd hy (List.not_mem_nil _)
  | x :: xs, y, hy => by
    by_cases hx : p x = true
    · simp only [updateFirst, hx, if_true] at hy
      rcases List.mem_cons.mp hy with h | h
      · exact Or.inr ⟨x, List.mem_cons_self x xs, hx, h⟩
      · exact Or.inl (List.mem_cons_of_mem x h)
    · simp only [updateFirst, hx, if_false] at hy
      rcases List.mem_cons.mp hy with h | h
      · exact Or.inl (h ▸ List.mem_cons_self x xs)
      · rcases mem_updateFirst h with h' | ⟨z, hz, hpz, hyz⟩
        · exact Or.inl (List.mem_cons_of_mem x h')
        · exact Or.inr ⟨z, List.mem_cons_of_mem x hz, hpz, hyz⟩

theorem find?_updateFirst_same (p : α → Bool) (f : α → α)
    (hf : ∀ x, p (f x) = p x) : ∀ (l : List α),
      (updateFirst p f l).find? p = (l.find? p).map f
  | [] => rfl
  | x :: xs => by
    by_cases hx : p x = true
    · simp [updateFirst, hx, List.find?_cons, hf]
    · have hx' : p x = false := eq_false_of_ne_true hx
      simp only [updateFirst, hx', Bool.false_eq_true, if_false, List.find?_cons]
      exact find?_updateFirst_same p f hf xs

theorem find?_updateFirst_diff (p q : α → Bool) (f : α → α)
    (hf : ∀ x, q (f x) = q x) (hpq : ∀ x, p x = true → q x = false) :
    ∀ (l : List α), (updateFirst p f l).find? q = l.find? q
  | [] => rfl
  | x :: xs => by
    by_cases hx : p x = true
    · have hq : q x = false := hpq x hx
      simp [updateFirst, hx, List.find?_cons, hf, hq]
    · have hx' : p x = false := eq_false_of_ne_true hx
      simp only [updateFirst, hx', Bool.false_eq_true, if_false, List.find?_cons]
      cases hqx : q x
      · exact find?_updateFirst_diff p q f hf hpq xs
      · rfl

theorem find_item_set_self {its : List Item} {iid : Nat} {it : Item}
    (hfind : find_item its iid = some it) (nq : Int) :
    find_item (set_item_quantity its iid nq) iid = some { it with quantity := nq } := by
  unfold find_item set_item_quantity
  refine (find?_updateFirst_same (fun it => decide (it.id = iid))
    (fun it => { it with quantity := nq }) (fun x => rfl) its).trans ?_
  rw [show its.find? (fun it => decide (it.id = iid)) = some it from hfind]
  rfl

theorem find_item_set_ne {its : List Item} {iid j : Nat} (hne : j ≠ iid) (nq : Int) :
    find_item (set_item_quantity its iid nq) j = find_item its j := by
  unfold find_item set_item_quantity
  exact find?_updateFirst_diff (fun it => decide (it.id = iid))
    (fun it => decide (it.id = j)) (fun it => { it with quantity := nq }) (fun x => rfl)
    (fun x hx => by
      have hx' : x.id = iid := of_decide_eq_true hx
      simp [hx', Ne.symm hne]) its

theorem set_item_quantity_of_none {its : List Item} {iid : Nat}
    (h : find_item its iid = none) (nq : Int) : set_item_quantity its iid nq = its := by
  unfold set_item_quantity
  exact updateFirst_of_no_match (by
    intro x hx
    exact eq_false_of_ne_true (List.find?_eq_none.mp h x hx))

theorem map_id_set_item_quantity (its : List Item) (iid : Nat) (nq : Int) :
    (set_item_quantity its iid nq).map (·.id) = its.map (·.id) := by
  unfold set_item_quantity
  exact map_updateFirst (fun it => decide (it.id = iid))
    (fun it => { it with quantity := nq }) (·.id) (fun _ => rfl) its

theorem nodupKeys_cons {k : Nat} {ks : List Nat} (h : nodupKeys (k :: ks) = true) :
    ks.contains k = false ∧ nodupKeys ks = true := by
  simp only [nodupKeys, Bool.and_eq_true, Bool.not_eq_true'] at h
  exact h

theorem not_mem_keys_of_contains_false {ks : List Nat} {k : Nat}
    (hc : ks.contains k = false) : k ∉ ks := by
  intro hmem
  simp at hc
  exact hc hmem

theorem mem_set_item_quantity :
    ∀ {its : List Item} {iid : Nat} {nq : Int} {y : Item},
      nodupKeys (its.map (·.id)) = true → y ∈ set_item_quantity its iid nq →
      (y ∈ its ∧ y.id ≠ iid) ∨ (∃ x ∈ its, x.id = iid ∧ y = { x with quantity := nq })
  | [], _, _, _, _, hy => absurd hy (List.not_mem_nil _)
  | a :: l, iid, nq, y, hnd, hy => by
    rcases nodupKeys_cons (by simpa using hnd) with ⟨hc, hnd'⟩
    by_cases ha : a.id = iid
    · simp only [set_item_quantity, updateFirst, decide_eq_true ha, if_true] at hy
      rcases List.mem_cons.mp hy with rfl | hmem
      · exact Or.inr ⟨a, List.mem_cons_self a l, ha, rfl⟩
      · refine Or.inl ⟨List.mem_cons_of_mem a hmem, fun hid => ?_⟩
        exact not_mem_keys_of_contains_false (ha ▸ hc)
          (hid ▸ List.mem_map_of_mem (·.id) hmem)
    · simp only [set_item_quantity, updateFirst, decide_eq_false ha, if_false] at hy
      rcases List.mem_cons.mp hy with rfl | hmem
      · exact Or.inl ⟨List.mem_cons_self y l, ha⟩
      · rcases mem_set_item_quantity hnd' hmem with ⟨h1, h2⟩ | ⟨x, hx, hxe, hxy⟩
        · exact Or.inl ⟨List.mem_cons_of_mem a h1, h2⟩
        · exact Or.inr ⟨x, List.mem_cons_of_mem a hx, hxe, hxy⟩

theorem ledgerFor_append_match {led : List LedgerEntry} {e : LedgerEntry} {iid : Nat}
    (h : e.item_id = iid) : ledgerFor (led ++ [e]) iid = ledgerFor led iid ++ [e] := by
  simp [ledgerFor, List.filter_append, h]

theorem ledgerFor_append_ne {led : List LedgerEntry} {e : LedgerEntry} {iid : Nat}
    (h : e.item_id ≠ iid) : ledgerFor (led ++ [e]) iid = ledgerFor led iid := by
  simp [ledgerFor, List.filter_append, h]

theorem ledgerFor_eq_nil {led : List LedgerEntry} {iid : Nat}
    (h : ∀ e ∈ led, e.item_id ≠ iid) : ledgerFor led iid = [] := by
  simp only [ledgerFor, List.filter_eq_nil_iff]
  intro e he
  simpa using h e he

theorem chainFromB_append {e : LedgerEntry} :
    ∀ {xs : List LedgerEntry} {prev : LedgerEntry}, chainFromB prev xs = true →
      chainStepB (xs.getLast?.getD prev) e = true →
      chainFromB prev (xs ++ [e]) = true
  | [], prev, _, h2 => by
    simpa [chainFromB] using h2
  | x :: xs, prev, h1, h2 => by
    simp only [chainFromB, Bool.and_eq_true] at h1
    have h2' : chainStepB (xs.getLast?.getD x) e = true := by
      cases hxs : xs.getLast? with
      | none =>
        have : xs = [] := List.getLast?_eq_none_iff.mp hxs
        subst this
        simpa [List.getLast?_concat] using h2
      | some p =>
        have hx2 : (x :: xs).getLast? = some p := by
          cases xs with
          | nil => cases hxs
          | cons a l => rw [List.getLast?_cons_cons]; exact hxs
        simpa [hx2] using h2
    simp only [List.cons_append, chainFromB, Bool.and_eq_true]
    exact ⟨h1.1, chainFromB_append h1.2 h2'⟩

theorem chainOkB_append {xs : List LedgerEntry} {e : LedgerEntry}
    (h1 : chainOkB xs = true)
    (h2 : ∀ p, xs.getLast? = some p → chainStepB p e = true)
    (h3 : xs.getLast? = none → baseEntryB e = true) :
    chainOkB (xs ++ [e]) = true := by
  cases xs with
  | nil => simpa [chainOkB, chainFromB] using h3 rfl
  | cons x l =>
    simp only [chainOkB, Bool.and_eq_true] at h1
    simp only [List.cons_append, chainOkB, Bool.and_eq_true]
    refine ⟨h1.1, chainFromB_append h1.2 ?_⟩
    cases hl : l.getLast? with
    | none =>
      have : l = [] := List.getLast?_eq_none_iff.mp hl
      subst this
      exact h2 x (by simp)
    | some p =>
      refine h2 p ?_
      cases l with
      | nil => cases hl
      | cons a m => rw [List.getLast?_cons_cons]; exact hl

theorem contains_eq_false_iff {ks : List Nat} {k : Nat} :
    ks.contains k = false ↔ k ∉ ks := by
  simp

theorem nodupKeys_append {ks : List Nat} {k : Nat}
    (h1 : nodupKeys ks = true) (h2 : ks.contains k = false) :
    nodupKeys (ks ++ [k]) = true := by
  induction ks with
  | nil => simp [nodupKeys]
  | cons a l ih =>
    rcases nodupKeys_cons h1 with ⟨hc, hl⟩
    have hk : k ∉ a :: l := contains_eq_false_iff.mp h2
    have hal : a ∉ l := contains_eq_false_iff.mp hc
    show nodupKeys (a :: (l ++ [k])) = true
    simp only [nodupKeys, Bool.and_eq_true, Bool.not_eq_true']
    refine ⟨?_, ih hl (contains_eq_false_iff.mpr
      (fun hm => hk (List.mem_cons_of_mem a hm)))⟩
    apply contains_eq_false_iff.mpr
    intro hmem
    rcases List.mem_append.mp hmem with hm | hm
    · exact hal hm
    · have ha : a = k := by simpa using hm
      exact hk (ha ▸ List.mem_cons_self a l)

theorem quantity_in_sub_out (qd : Int) :
    (if 0 < qd then qd else 0) - (if qd < 0 then |qd| else 0) = qd := by
  rcases lt_trichotomy qd 0 with h | h | h
  · rw [if_neg (by omega), if_pos h, abs_of_neg h]
    ring
  · simp [h]
  · rw [if_pos h, if_neg (by omega)]
    ring

theorem weight_in_sub_out (wd : ℚ) :
    (if 0 < wd then wd else 0) - (if wd < 0 then |wd| else 0) = wd := by
  rcases lt_trichotomy wd 0 with h | h | h
  · rw [if_neg (by linarith), if_pos h, abs_of_neg h]
    ring
  · simp [h]
  · rw [if_pos h, if_neg (by linarith)]
    ring

/-! ## Single-application preservation lemmas -/

theorem find_item_mem {its : List Item} {iid : Nat} {it : Item}
    (h : find_item its iid = some it) : it ∈ its ∧ it.id = iid := by
  unfold find_item at h
  have h2 := List.find?_some h
  exact ⟨List.mem_of_find?_eq_some h, by simpa using h2⟩

theorem nodupKeys_nodup {ks : List Nat} (h : nodupKeys ks = true) : ks.Nodup := by
  induction ks with
  | nil => exact List.nodup_nil
  | cons a l ih =>
    rcases nodupKeys_cons h with ⟨hc, hl⟩
    exact List.nodup_cons.mpr ⟨contains_eq_false_iff.mp hc, ih hl⟩

theorem eq_of_same_key {its : List Item} {x y : Item}
    (hnd : nodupKeys (its.map (·.id)) = true)
    (hx : x ∈ its) (hy : y ∈ its) (hxy : x.id = y.id) : x = y :=
  List.inj_on_of_nodup_map (nodupKeys_nodup hnd) hx hy hxy

theorem agreeL_last {its : List Item} {led : List LedgerEntry} {it : Item}
    (h : agreeL its led = true) (hm : it ∈ its) :
    ∃ p, (ledgerFor led it.id).getLast? = some p ∧ agreeEntryB it p = true := by
  have := (List.all_eq_true.mp h) it hm
  cases hl : (ledgerFor led it.id).getLast? with
  | none => rw [hl] at this; cases this
  | some p => rw [hl] at this; exact ⟨p, rfl, this⟩

theorem chainInvL_apply {its : List Item} {led : List LedgerEntry} {iid : Nat}
    {nq : Int} {e : LedgerEntry}
    (hchain : chainInvL its led = true)
    (heid : e.item_id = iid)
    (hbase : (ledgerFor led iid).getLast? = none → baseEntryB e = true)
    (hstep : ∀ p, (ledgerFor led iid).getLast? = some p → chainStepB p e = true) :
    chainInvL (set_item_quantity its iid nq) (led ++ [e]) = true := by
  rw [chainInvL, List.all_eq_true]
  intro y hy
  have hyid : ∃ x ∈ its, y.id = x.id := by
    rcases mem_updateFirst hy with h | ⟨x, hx, _, rfl⟩
    · exact ⟨y, h, rfl⟩
    · exact ⟨x, hx, rfl⟩
  rcases hyid with ⟨x, hx, hxy⟩
  have hcx : chainOkB (ledgerFor led x.id) = true := (List.all_eq_true.mp hchain) x hx
  by_cases hcase : y.id = iid
  · rw [hcase, ledgerFor_append_match heid]
    refine chainOkB_append ?_ hstep hbase
    rw [← hcase, hxy]
    exact hcx
  · rw [ledgerFor_append_ne (by rw [heid]; exact fun h => hcase h.symm)]
    rw [hxy]; exact hcx

theorem agreeL_apply {its : List Item} {led : List LedgerEntry} {iid : Nat}
    {nq : Int} {e : LedgerEntry} {it : Item}
    (hagree : agreeL its led = true)
    (hnd : nodupKeys (its.map (·.id)) = true)
    (hfind : find_item its iid = some it)
    (heid : e.item_id = iid)
    (hnew : agreeEntryB { it with quantity := nq } e = true) :
    agreeL (set_item_quantity its iid nq) (led ++ [e]) = true := by
  rw [agreeL, List.all_eq_true]
  intro y hy
  rcases mem_set_item_quantity hnd hy with ⟨hmem, hne⟩ | ⟨x, hx, hxid, rfl⟩
  · rw [ledgerFor_append_ne (by rw [heid]; exact fun h => hne h.symm)]
    exact (List.all_eq_true.mp hagree) y hmem
  · have hxit : x = it :=
      eq_of_same_key hnd hx (find_item_mem hfind).1 (hxid.trans (find_item_mem hfind).2.symm)
    subst hxit
    have : ({ x with quantity := nq } : Item).id = iid := hxid
    rw [this, ledgerFor_append_match heid, List.getLast?_concat]
    exact hnew

theorem sumInvL_apply {its : List Item} {led : List LedgerEntry} {iid : Nat}
    {nq : Int} {e : LedgerEntry} {it : Item}
    (hsum : sumInvL its led = true)
    (hnd : nodupKeys (its.map (·.id)) = true)
    (hfind : find_item its iid = some it)
    (heid : e.item_id = iid)
    (hdelta : e.quantity_in - e.quantity_out = nq - it.quantity) :
    sumInvL (set_item_quantity its iid nq) (led ++ [e]) = true := by
  rw [sumInvL, List.all_eq_true]
  intro y hy
  rcases mem_set_item_quantity hnd hy with ⟨hmem, hne⟩ | ⟨x, hx, hxid, rfl⟩
  · rw [ledgerFor_append_ne (by rw [heid]; exact fun h => hne h.symm)]
    exact (List.all_eq_true.mp hsum) y hmem
  · have hxit : x = it :=
      eq_of_same_key hnd hx (find_item_mem hfind).1 (hxid.trans (find_item_mem hfind).2.symm)
    subst hxit
    have hxe : ({ x with quantity := nq } : Item).id = iid := hxid
    rw [hxe, ledgerFor_append_match heid]
    apply decide_eq_true
    have hold : x.quantity =
        ((ledgerFor led x.id).map (fun e => e.quantity_in - e.quantity_out)).sum :=
      of_decide_eq_true ((List.all_eq_true.mp hsum) x hx)
    rw [List.map_append, List.sum_append, hxid] at *
    simp only [List.map_cons, List.map_nil, List.sum_cons, List.sum_nil, add_zero]
    rw [← hxid, ← hold]
    omega

/-! ## Well-formedness and congruence lemmas -/

theorem wfB_iff {db : DB} : wfB db = true ↔
    (∀ it ∈ db.items, it.id < db.next_id) ∧
    (∀ e ∈ db.stock_ledger,
      e.id < db.next_id ∧ e.item_id < db.next_id ∧ e.created_at < db.clock) ∧
    nodupKeys (db.items.map (·.id)) = true ∧
    (db.stock_ledger.map (·.created_at)).Chain' (· < ·) := by
  simp only [wfB, Bool.and_eq_true, List.all_eq_true, decide_eq_true_eq, and_assoc]

theorem chainInvB_congr {db db' : DB}
    (hi : db'.items = db.items) (hl : db'.stock_ledger = db.stock_ledger) :
    chainInvB db' = chainInvB db := by
  simp [chainInvB, hi, hl]

theorem agreeB_congr {db db' : DB}
    (hi : db'.items = db.items) (hl : db'.stock_ledger = db.stock_ledger) :
    agreeB db' = agreeB db := by
  simp [agreeB, hi, hl]

theorem sumInvB_congr {db db' : DB}
    (hi : db'.items = db.items) (hl : db'.stock_ledger = db.stock_ledger) :
    sumInvB db' = sumInvB db := by
  simp [sumInvB, hi, hl]

theorem wfB_mono {db db' : DB} (h : wfB db = true)
    (hi : db'.items = db.items) (hl : db'.stock_ledger = db.stock_ledger)
    (hn : db.next_id ≤ db'.next_id) (hc : db.clock ≤ db'.clock) :
    wfB db' = true := by
  rcases wfB_iff.mp h with ⟨h1, h2, h3, h4⟩
  refine wfB_iff.mpr ⟨?_, ?_, ?_, ?_⟩
  · intro it hm
    rw [hi] at hm
    exact lt_of_lt_of_le (h1 it hm) hn
  · intro e hm
    rw [hl] at hm
    rcases h2 e hm with ⟨a, b, c⟩
    exact ⟨lt_of_lt_of_le a hn, lt_of_lt_of_le b hn, lt_of_lt_of_le c hc⟩
  · rw [hi]; exact h3
  · rw [hl]; exact h4

theorem chain_created_append {db : DB} {e : LedgerEntry}
    (hwf : wfB db = true) (hc : db.clock ≤ e.created_at) :
    ((db.stock_ledger ++ [e]).map (·.created_at)).Chain' (· < ·) := by
  rcases wfB_iff.mp hwf with ⟨_, h2, _, h4⟩
  rw [List.map_append]
  refine List.Chain'.append h4 (by simp) ?_
  intro x hx y hy
  simp only [List.map_cons, List.map_nil, List.head?_cons, Option.mem_def,
    Option.some.injEq] at hy
  have hxm : x ∈ db.stock_ledger.map (·.created_at) :=
    List.mem_of_mem_getLast? hx
  rcases List.mem_map.mp hxm with ⟨z, hz, rfl⟩
  rw [← hy]
  exact lt_of_lt_of_le (h2 z hz).2.2 hc

/-- Appending a fresh ledger entry for an existing item together with the
quantity overwrite preserves well-formedness. -/
theorem wfB_apply_delta {db : DB} {iid : Nat} {nq : Int} {e : LedgerEntry}
    {it : Item} {db' : DB}
    (hwf : wfB db = true)
    (hfind : find_item db.items iid = some it)
    (heid : e.item_id = iid) (hid : e.id = db.next_id) (hc : e.created_at = db.clock)
    (hi : db'.items = set_item_quantity db.items iid nq)
    (hl : db'.stock_ledger = db.stock_ledger ++ [e])
    (hn : db.next_id + 1 ≤ db'.next_id) (hcl : db.clock + 1 ≤ db'.clock) :
    wfB db' = true := by
  rcases wfB_iff.mp hwf with ⟨h1, h2, h3, h4⟩
  refine wfB_iff.mpr ⟨?_, ?_, ?_, ?_⟩
  · intro y hm
    rw [hi] at hm
    rcases mem_updateFirst hm with h | ⟨x, hx, _, rfl⟩
    · have := h1 y h; omega
    · have h5 : x.id < db.next_id := h1 x hx
      show x.id < db'.next_id
      omega
  · intro y hm
    rw [hl] at hm
    rcases List.mem_append.mp hm with h | h
    · rcases h2 y h with ⟨a, b, c⟩
      exact ⟨by omega, by omega, by omega⟩
    · have : y = e := by simpa using h
      subst this
      have h5 : it.id < db.next_id := h1 it (find_item_mem hfind).1
      have h6 := (find_item_mem hfind).2
      refine ⟨by omega, ?_, by omega⟩
      rw [heid, ← h6]
      omega
  · rw [hi, map_id_set_item_quantity]
    exact h3
  · rw [hl]
    exact chain_created_append hwf (le_of_eq hc.symm)

/-- Appending a fresh ledger entry for an existing item preserves the chain
invariant, provided the entry's running balances extend the item's current
(registry-agreeing) balances by the entry's own deltas. -/
theorem chainInv_apply_delta {db : DB} {iid : Nat} {nq : Int} {e : LedgerEntry}
    {it : Item}
    (hchain : chainInvB db = true) (hagree : agreeB db = true)
    (hfind : find_item db.items iid = some it)
    (heid : e.item_id = iid)
    (hrq : e.running_quantity = it.quantity + e.quantity_in - e.quantity_out)
    (hrw : e.running_weight = (it.quantity : ℚ) * it.weight + e.weight_in - e.weight_out)
    (hrv : e.running_value = (it.quantity : ℚ) * it.selling_price
      + (e.quantity_in : ℚ) * e.unit_cost - (e.quantity_out : ℚ) * e.unit_cost) :
    chainInvL (set_item_quantity db.items iid nq) (db.stock_ledger ++ [e]) = true := by
  rcases find_item_mem hfind with ⟨hmem, hitid⟩
  rcases agreeL_last hagree hmem with ⟨p, hp, hpe⟩
  rw [hitid] at hp
  refine chainInvL_apply hchain heid ?_ ?_
  · intro hnone
    rw [hnone] at hp
    cases hp
  · intro q hq
    rw [hp] at hq
    cases hq
    simp only [agreeEntryB, Bool.and_eq_true, decide_eq_true_eq] at hpe
    simp only [chainStepB, Bool.and_eq_true, decide_eq_true_eq]
    obtain ⟨⟨e1, e2⟩, e3⟩ := hpe
    rw [e1, e2, e3]
    exact ⟨⟨hrq, hrw⟩, hrv⟩

/-- Appending a fresh ledger entry for an existing item preserves registry/ledger
agreement, provided the entry's running balances describe the overwritten
quantity. -/
theorem agree_apply_delta {db : DB} {iid : Nat} {nq : Int} {e : LedgerEntry}
    {it : Item}
    (hwf : wfB db = true) (hagree : agreeB db = true)
    (hfind : find_item db.items iid = some it)
    (heid : e.item_id = iid)
    (haq : e.running_quantity = nq)
    (haw : e.running_weight = (nq : ℚ) * it.weight)
    (hav : e.running_value = (nq : ℚ) * it.selling_price) :
    agreeL (set_item_quantity db.items iid nq) (db.stock_ledger ++ [e]) = true := by
  refine agreeL_apply hagree (wfB_iff.mp hwf).2.2.1 hfind heid ?_
  simp only [agreeEntryB, Bool.and_eq_true, decide_eq_true_eq]
  exact ⟨⟨haq, haw⟩, hav⟩

/-- Appending a fresh ledger entry for an existing item preserves the
registry-equals-ledger-sum invariant, provided the entry's quantity delta is the
overwrite delta. -/
theorem sumInv_apply_delta {db : DB} {iid : Nat} {nq : Int} {e : LedgerEntry}
    {it : Item}
    (hwf : wfB db = true) (hsum : sumInvB db = true)
    (hfind : find_item db.items iid = some it)
    (heid : e.item_id = iid)
    (hdelta : e.quantity_in - e.quantity_out = nq - it.quantity) :
    sumInvL (set_item_quantity db.items iid nq) (db.stock_ledger ++ [e]) = true :=
  sumInvL_apply hsum (wfB_iff.mp hwf).2.2.1 hfind heid hdelta

/-! ## Fresh-item append (the `create_item` path) -/

theorem ledgerFor_fresh {db : DB} (hwf : wfB db = true) {iid : Nat}
    (h : db.next_id ≤ iid) : ledgerFor db.stock_ledger iid = [] := by
  refine ledgerFor_eq_nil ?_
  intro e he
  have := ((wfB_iff.mp hwf).2.1 e he).2.1
  omega

theorem items_fresh_ne {db : DB} (hwf : wfB db = true) {y : Item} (hy : y ∈ db.items)
    {iid : Nat} (h : db.next_id ≤ iid) : y.id ≠ iid := by
  have := (wfB_iff.mp hwf).1 y hy
  omega

theorem wfB_new_item {db : DB} {item : Item} {e : LedgerEntry} {db' : DB}
    (hwf : wfB db = true)
    (hitid : item.id = db.next_id)
    (heid : e.item_id = item.id) (hid : e.id = db.next_id + 1)
    (hec : e.created_at = db.clock + 1)
    (hi : db'.items = db.items ++ [item])
    (hl : db'.stock_ledger = db.stock_ledger ++ [e])
    (hn : db.next_id + 2 ≤ db'.next_id) (hcl : db.clock + 2 ≤ db'.clock) :
    wfB db' = true := by
  rcases wfB_iff.mp hwf with ⟨h1, h2, h3, h4⟩
  refine wfB_iff.mpr ⟨?_, ?_, ?_, ?_⟩
  · intro y hm
    rw [hi] at hm
    rcases List.mem_append.mp hm with h | h
    · have := h1 y h; omega
    · have : y = item := by simpa using h
      subst this
      have h5 : y.id = db.next_id := hitid
      show y.id < db'.next_id
      omega
  · intro y hm
    rw [hl] at hm
    rcases List.mem_append.mp hm with h | h
    · have := h2 y h
      exact ⟨by omega, by omega, by omega⟩
    · have : y = e := by simpa using h
      subst this
      rw [heid, hitid]
      exact ⟨by omega, by omega, by omega⟩
  · rw [hi, List.map_append]
    refine nodupKeys_append h3 ?_
    refine contains_eq_false_iff.mpr ?_
    intro hmem
    rcases List.mem_map.mp hmem with ⟨z, hz, hze⟩
    have h6 : z.id = item.id := hze
    have h7 := h1 z hz
    omega
  · rw [hl]
    exact chain_created_append hwf (by omega)

theorem chainInv_new_item {db : DB} {item : Item} {e : LedgerEntry}
    (hwf : wfB db = true) (hchain : chainInvB db = true)
    (hitid : item.id = db.next_id)
    (heid : e.item_id = item.id)
    (hbase : baseEntryB e = true) :
    chainInvL (db.items ++ [item]) (db.stock_ledger ++ [e]) = true := by
  rw [chainInvL, List.all_eq_true]
  intro y hy
  rcases List.mem_append.mp hy with h | h
  · rw [ledgerFor_append_ne (by
      rw [heid, hitid]
      exact fun hx => items_fresh_ne hwf h (le_refl _) hx.symm)]
    exact (List.all_eq_true.mp hchain) y h
  · have : y = item := by simpa using h
    subst this
    rw [ledgerFor_append_match heid, ledgerFor_fresh hwf (le_of_eq hitid.symm)]
    simp [chainOkB, chainFromB, hbase]

theorem agree_new_item {db : DB} {item : Item} {e : LedgerEntry}
    (hwf : wfB db = true) (hagree : agreeB db = true)
    (hitid : item.id = db.next_id)
    (heid : e.item_id = item.id)
    (hae : agreeEntryB item e = true) :
    agreeL (db.items ++ [item]) (db.stock_ledger ++ [e]) = true := by
  rw [agreeL, List.all_eq_true]
  intro y hy
  rcases List.mem_append.mp hy with h | h
  · rw [ledgerFor_append_ne (by
      rw [heid, hitid]
      exact fun hx => items_fresh_ne hwf h (le_refl _) hx.symm)]
    exact (List.all_eq_true.mp hagree) y h
  · have : y = item := by simpa using h
    subst this
    rw [ledgerFor_append_match heid, ledgerFor_fresh hwf (le_of_eq hitid.symm)]
    simpa using hae

theorem sumInv_new_item {db : DB} {item : Item} {e : LedgerEntry}
    (hwf : wfB db = true) (hsum : sumInvB db = true)
    (hitid : item.id = db.next_id)
    (heid : e.item_id = item.id)
    (hdelta : e.quantity_in - e.quantity_out = item.quantity) :
    sumInvL (db.items ++ [item]) (db.stock_ledger ++ [e]) = true := by
  rw [sumInvL, List.all_eq_true]
  intro y hy
  rcases List.mem_append.mp hy with h | h
  · rw [ledgerFor_append_ne (by
      rw [heid, hitid]
      exact fun hx => items_fresh_ne hwf h (le_refl _) hx.symm)]
    exact (List.all_eq_true.mp hsum) y h
  · have : y = item := by simpa using h
    subst this
    rw [ledgerFor_append_match heid, ledgerFor_fresh hwf (le_of_eq hitid.symm)]
    simpa using hdelta.symm

/-! ## Per-line and per-operation preservation -/

theorem invB_iff {db : DB} : invB db = true ↔
    wfB db = true ∧ chainInvB db = true ∧ agreeB db = true := by
  simp [invB, Bool.and_eq_true, and_assoc]

theorem invB_frame {db db' : DB} (h : invB db = true)
    (hi : db'.items = db.items) (hl : db'.stock_ledger = db.stock_ledger)
    (hn : db.next_id ≤ db'.next_id) (hc : db.clock ≤ db'.clock) : invB db' = true := by
  rcases invB_iff.mp h with ⟨h1, h2, h3⟩
  refine invB_iff.mpr ⟨wfB_mono h1 hi hl hn hc, ?_, ?_⟩
  · rw [chainInvB_congr hi hl]; exact h2
  · rw [agreeB_congr hi hl]; exact h3

theorem applyAdjustmentLine_none {aid : Nat} {r a : String} {db : DB}
    {l : StockAdjustmentItem} (h : find_item db.items l.item_id = none) :
    applyAdjustmentLine aid r a db l = db := by
  simp [applyAdjustmentLine, h]

theorem applyAdjustmentLine_items (aid : Nat) (r a : String) (db : DB)
    (l : StockAdjustmentItem) :
    (applyAdjustmentLine aid r a db l).items = applyLineItems db.items l := by
  cases h : find_item db.items l.item_id <;>
    simp [applyAdjustmentLine, applyLineItems, h]

theorem applyAdjustmentLine_inv (aid : Nat) (r a : String) {db : DB}
    {l : StockAdjustmentItem}
    (h : invB db = true) (hok : adjLineOkB db.items l = true) :
    invB (applyAdjustmentLine aid r a db l) = true := by
  rcases invB_iff.mp h with ⟨hwf, hchain, hagree⟩
  cases hfind : find_item db.items l.item_id with
  | none => rw [applyAdjustmentLine_none hfind]; exact h
  | some item =>
    obtain ⟨⟨hq, hw⟩, hu⟩ :
        (l.quantity_difference = l.adjusted_quantity - item.quantity ∧
         l.weight_difference = (l.quantity_difference : ℚ) * item.weight) ∧
        l.unit_cost = item.selling_price := by
      have h2 := hok
      simp only [adjLineOkB, hfind, Bool.and_eq_true, decide_eq_true_eq] at h2
      exact h2
    have hitid := (find_item_mem hfind).2
    simp only [applyAdjustmentLine, hfind]
    refine invB_iff.mpr ⟨?_, ?_, ?_⟩
    · exact wfB_apply_delta hwf hfind hitid rfl rfl rfl rfl (by simp) (by simp)
    · show chainInvL (set_item_quantity db.items l.item_id l.adjusted_quantity)
        (db.stock_ledger ++ [_]) = true
      refine chainInv_apply_delta hchain hagree hfind hitid ?_ ?_ ?_
      · show l.adjusted_quantity = item.quantity
          + (if 0 < l.quantity_difference then l.quantity_difference else 0)
          - (if l.quantity_difference < 0 then |l.quantity_difference| else 0)
        have h3 := quantity_in_sub_out l.quantity_difference
        omega
      · show (l.adjusted_quantity : ℚ) * item.weight
          = (item.quantity : ℚ) * item.weight
          + (if 0 < l.weight_difference then l.weight_difference else 0)
          - (if l.weight_difference < 0 then |l.weight_difference| else 0)
        rw [add_sub_assoc, weight_in_sub_out, hw, hq]
        push_cast
        ring
      · show (l.adjusted_quantity : ℚ) * item.selling_price
          = (item.quantity : ℚ) * item.selling_price
          + ((if 0 < l.quantity_difference then l.quantity_difference else 0 : Int) : ℚ)
            * l.unit_cost
          - ((if l.quantity_difference < 0 then |l.quantity_difference| else 0 : Int) : ℚ)
            * l.unit_cost
        have h4 : ((if 0 < l.quantity_difference then l.quantity_difference else 0 : Int) : ℚ)
              * l.unit_cost
            - ((if l.quantity_difference < 0 then |l.quantity_difference| else 0 : Int) : ℚ)
              * l.unit_cost
            = (l.quantity_difference : ℚ) * l.unit_cost := by
          rw [← sub_mul, ← Int.cast_sub, quantity_in_sub_out]
        rw [add_sub_assoc, h4, hu, hq]
        push_cast
        ring
    · show agreeL (set_item_quantity db.items l.item_id l.adjusted_quantity)
        (db.stock_ledger ++ [_]) = true
      exact agree_apply_delta hwf hagree hfind hitid rfl rfl rfl

theorem invQB_iff {db : DB} : invQB db = true ↔
    wfB db = true ∧ sumInvB db = true := by
  simp [invQB, Bool.and_eq_true]

theorem invQB_frame {db db' : DB} (h : invQB db = true)
    (hi : db'.items = db.items) (hl : db'.stock_ledger = db.stock_ledger)
    (hn : db.next_id ≤ db'.next_id) (hc : db.clock ≤ db'.clock) : invQB db' = true := by
  rcases invQB_iff.mp h with ⟨h1, h2⟩
  refine invQB_iff.mpr ⟨wfB_mono h1 hi hl hn hc, ?_⟩
  rw [sumInvB_congr hi hl]; exact h2

theorem applyAdjustmentLine_sum (aid : Nat) (r a : String) {db : DB}
    {l : StockAdjustmentItem}
    (h : invQB db = true) (hok : adjLineQtyOkB db.items l = true) :
    invQB (applyAdjustmentLine aid r a db l) = true := by
  rcases invQB_iff.mp h with ⟨hwf, hsum⟩
  cases hfind : find_item db.items l.item_id with
  | none => rw [applyAdjustmentLine_none hfind]; exact h
  | some item =>
    have hq : l.quantity_difference = l.adjusted_quantity - item.quantity := by
      have h2 := hok
      simp only [adjLineQtyOkB, hfind, decide_eq_true_eq] at h2
      exact h2
    have hitid := (find_item_mem hfind).2
    simp only [applyAdjustmentLine, hfind]
    refine invQB_iff.mpr ⟨?_, ?_⟩
    · exact wfB_apply_delta hwf hfind hitid rfl rfl rfl rfl (by simp) (by simp)
    · show sumInvL (set_item_quantity db.items l.item_id l.adjusted_quantity)
        (db.stock_ledger ++ [_]) = true
      refine sumInv_apply_delta hwf hsum hfind hitid ?_
      show (if 0 < l.quantity_difference then l.quantity_difference else 0)
          - (if l.quantity_difference < 0 then |l.quantity_difference| else 0)
          = l.adjusted_quantity - item.quantity
      have h3 := quantity_in_sub_out l.quantity_difference
      omega

theorem applyReconciliationLine_none {rid : Nat} {a : String} {db : DB}
    {l : StockAdjustmentItem} (h : find_item db.items l.item_id = none) :
    applyReconciliationLine rid a db l = db := by
  have h2 := set_item_quantity_of_none h l.adjusted_quantity
  simp [applyReconciliationLine, h2, h]

theorem applyReconciliationLine_items (rid : Nat) (a : String) (db : DB)
    (l : StockAdjustmentItem) :
    (applyReconciliationLine rid a db l).items = applyLineItems db.items l := by
  cases h : find_item db.items l.item_id with
  | none => rw [applyReconciliationLine_none h]; simp [applyLineItems, h]
  | some item =>
    simp only [applyReconciliationLine, applyLineItems, h]
    rw [find_item_set_self h]

theorem applyReconciliationLine_inv (rid : Nat) (a : String) {db : DB}
    {l : StockAdjustmentItem}
    (h : invB db = true) (hok : reconLineOkB db.items l = true) :
    invB (applyReconciliationLine rid a db l) = true := by
  rcases invB_iff.mp h with ⟨hwf, hchain, hagree⟩
  cases hfind : find_item db.items l.item_id with
  | none => rw [applyReconciliationLine_none hfind]; exact h
  | some item =>
    obtain ⟨⟨⟨hq, hw⟩, hu⟩, haw⟩ :
        ((l.quantity_difference = l.adjusted_quantity - item.quantity ∧
          l.weight_difference = (l.quantity_difference : ℚ) * item.weight) ∧
         l.unit_cost = item.selling_price) ∧
        l.adjusted_weight = (l.adjusted_quantity : ℚ) * item.weight := by
      have h2 := hok
      simp only [reconLineOkB, adjLineOkB, hfind, Bool.and_eq_true,
        decide_eq_true_eq] at h2
      exact h2
    have hitid := (find_item_mem hfind).2
    simp only [applyReconciliationLine, hfind]
    rw [find_item_set_self hfind]
    refine invB_iff.mpr ⟨?_, ?_, ?_⟩
    · exact wfB_apply_delta hwf hfind rfl rfl rfl rfl rfl (by simp) (by simp)
    · show chainInvL (set_item_quantity db.items l.item_id l.adjusted_quantity)
        (db.stock_ledger ++ [_]) = true
      refine chainInv_apply_delta hchain hagree hfind rfl ?_ ?_ ?_
      · show l.adjusted_quantity = item.quantity
          + (if 0 < l.quantity_difference then l.quantity_difference else 0)
          - (if l.quantity_difference < 0 then |l.quantity_difference| else 0)
        have h3 := quantity_in_sub_out l.quantity_difference
        omega
      · show l.adjusted_weight
          = (item.quantity : ℚ) * item.weight
          + (if 0 < l.weight_difference then l.weight_difference else 0)
          - (if l.weight_difference < 0 then |l.weight_difference| else 0)
        rw [add_sub_assoc, weight_in_sub_out, haw, hw, hq]
        push_cast
        ring
      · show (l.adjusted_quantity : ℚ) * l.unit_cost
          = (item.quantity : ℚ) * item.selling_price
          + ((if 0 < l.quantity_difference then l.quantity_difference else 0 : Int) : ℚ)
            * l.unit_cost
          - ((if l.quantity_difference < 0 then |l.quantity_difference| else 0 : Int) : ℚ)
            * l.unit_cost
        have h4 : ((if 0 < l.quantity_difference then l.quantity_difference else 0 : Int) : ℚ)
              * l.unit_cost
            - ((if l.quantity_difference < 0 then |l.quantity_difference| else 0 : Int) : ℚ)
              * l.unit_cost
            = (l.quantity_difference : ℚ) * l.unit_cost := by
          rw [← sub_mul, ← Int.cast_sub, quantity_in_sub_out]
        rw [add_sub_assoc, h4, hu, hq]
        push_cast
        ring
    · show agreeL (set_item_quantity db.items l.item_id l.adjusted_quantity)
        (db.stock_ledger ++ [_]) = true
      exact agree_apply_delta hwf hagree hfind rfl rfl haw (by rw [hu])

theorem applyReconciliationLine_sum (rid : Nat) (a : String) {db : DB}
    {l : StockAdjustmentItem}
    (h : invQB db = true) (hok : adjLineQtyOkB db.items l = true) :
    invQB (applyReconciliationLine rid a db l) = true := by
  rcases invQB_iff.mp h with ⟨hwf, hsum⟩
  cases hfind : find_item db.items l.item_id with
  | none => rw [applyReconciliationLine_none hfind]; exact h
  | some item =>
    have hq : l.quantity_difference = l.adjusted_quantity - item.quantity := by
      have h2 := hok
      simp only [adjLineQtyOkB, hfind, decide_eq_true_eq] at h2
      exact h2
    have hitid := (find_item_mem hfind).2
    simp only [applyReconciliationLine, hfind]
    rw [find_item_set_self hfind]
    refine invQB_iff.mpr ⟨?_, ?_⟩
    · exact wfB_apply_delta hwf hfind rfl rfl rfl rfl rfl (by simp) (by simp)
    · show sumInvL (set_item_quantity db.items l.item_id l.adjusted_quantity)
        (db.stock_ledger ++ [_]) = true
      refine sumInv_apply_delta hwf hsum hfind rfl ?_
      show (if 0 < l.quantity_difference then l.quantity_difference else 0)
          - (if l.quantity_difference < 0 then |l.quantity_difference| else 0)
          = l.adjusted_quantity - item.quantity
      have h3 := quantity_in_sub_out l.quantity_difference
      omega

theorem foldl_applyAdjustmentLine_inv (aid : Nat) (r a : String) :
    ∀ (ls : List StockAdjustmentItem) (db : DB), invB db = true →
      adjLinesOkB db.items ls = true →
      invB (ls.foldl (applyAdjustmentLine aid r a) db) = true
  | [], _, h, _ => h
  | l :: ls, db, h, hok => by
    have hok' : adjLineOkB db.items l = true ∧
        adjLinesOkB (applyLineItems db.items l) ls = true := by
      simpa [adjLinesOkB, Bool.and_eq_true] using hok
    have h1 := applyAdjustmentLine_inv aid r a h hok'.1
    have h2 := applyAdjustmentLine_items aid r a db l
    simp only [List.foldl_cons]
    exact foldl_applyAdjustmentLine_inv aid r a ls _ h1 (by rw [h2]; exact hok'.2)

theorem foldl_applyAdjustmentLine_sum (aid : Nat) (r a : String) :
    ∀ (ls : List StockAdjustmentItem) (db : DB), invQB db = true →
      adjLinesQtyOkB db.items ls = true →
      invQB (ls.foldl (applyAdjustmentLine aid r a) db) = true
  | [], _, h, _ => h
  | l :: ls, db, h, hok => by
    have hok' : adjLineQtyOkB db.items l = true ∧
        adjLinesQtyOkB (applyLineItems db.items l) ls = true := by
      simpa [adjLinesQtyOkB, Bool.and_eq_true] using hok
    have h1 := applyAdjustmentLine_sum aid r a h hok'.1
    have h2 := applyAdjustmentLine_items aid r a db l
    simp only [List.foldl_cons]
    exact foldl_applyAdjustmentLine_sum aid r a ls _ h1 (by rw [h2]; exact hok'.2)

theorem foldl_applyReconciliationLine_inv (rid : Nat) (a : String) :
    ∀ (ls : List StockAdjustmentItem) (db : DB), invB db = true →
      reconLinesOkB db.items ls = true →
      invB (ls.foldl (applyReconciliationLine rid a) db) = true
  | [], _, h, _ => h
  | l :: ls, db, h, hok => by
    have hok' : reconLineOkB db.items l = true ∧
        reconLinesOkB (applyLineItems db.items l) ls = true := by
      simpa [reconLinesOkB, Bool.and_eq_true] using hok
    have h1 := applyReconciliationLine_inv rid a h hok'.1
    have h2 := applyReconciliationLine_items rid a db l
    simp only [List.foldl_cons]
    exact foldl_applyReconciliationLine_inv rid a ls _ h1 (by rw [h2]; exact hok'.2)

theorem foldl_applyReconciliationLine_sum (rid : Nat) (a : String) :
    ∀ (ls : List StockAdjustmentItem) (db : DB), invQB db = true →
      adjLinesQtyOkB db.items ls = true →
      invQB (ls.foldl (applyReconciliationLine rid a) db) = true
  | [], _, h, _ => h
  | l :: ls, db, h, hok => by
    have hok' : adjLineQtyOkB db.items l = true ∧
        adjLinesQtyOkB (applyLineItems db.items l) ls = true := by
      simpa [adjLinesQtyOkB, Bool.and_eq_true] using hok
    have h1 := applyReconciliationLine_sum rid a h hok'.1
    have h2 := applyReconciliationLine_items rid a db l
    simp only [List.foldl_cons]
    exact foldl_applyReconciliationLine_sum rid a ls _ h1 (by rw [h2]; exact hok'.2)

/-! ## Operation-level preservation -/

theorem create_item_inv (db : DB) (d : JewelleryItemCreate) (a : String)
    (h : invB db = true) : invB (create_item db d a).2 = true := by
  rcases invB_iff.mp h with ⟨hwf, hchain, hagree⟩
  have hfresh : ledgerFor db.stock_ledger db.next_id = [] :=
    ledgerFor_fresh hwf (le_refl _)
  simp only [create_item]
  split_ifs with h1 h2 h3
  · exact h
  · exact h
  · exact h
  · simp only [create_stock_ledger_entry, hfresh, maxByCreated]
    refine invB_iff.mpr ⟨?_, ?_, ?_⟩
    · exact wfB_new_item hwf rfl rfl rfl rfl rfl rfl (by simp) (by simp)
    · show chainInvL (db.items ++ [_]) (db.stock_ledger ++ [_]) = true
      refine chainInv_new_item hwf hchain rfl rfl ?_
      rw [baseEntryB, Bool.and_eq_true, Bool.and_eq_true]
      exact ⟨⟨decide_eq_true rfl, decide_eq_true rfl⟩, decide_eq_true rfl⟩
    · show agreeL (db.items ++ [_]) (db.stock_ledger ++ [_]) = true
      refine agree_new_item hwf hagree rfl rfl ?_
      rw [agreeEntryB, Bool.and_eq_true, Bool.and_eq_true]
      refine ⟨⟨decide_eq_true ?_, decide_eq_true ?_⟩, decide_eq_true ?_⟩
      · show d.quantity - 0 = d.quantity
        omega
      · show d.weight * (d.quantity : ℚ) - 0 = ((d.quantity : Int) : ℚ) * d.weight
        ring
      · show (d.quantity : ℚ) * d.selling_price - ((0 : Int) : ℚ) * d.selling_price
          = ((d.quantity : Int) : ℚ) * d.selling_price
        push_cast
        ring

theorem create_item_sum (db : DB) (d : JewelleryItemCreate) (a : String)
    (h : invQB db = true) : invQB (create_item db d a).2 = true := by
  rcases invQB_iff.mp h with ⟨hwf, hsum⟩
  have hfresh : ledgerFor db.stock_ledger db.next_id = [] :=
    ledgerFor_fresh hwf (le_refl _)
  simp only [create_item]
  split_ifs with h1 h2 h3
  · exact h
  · exact h
  · exact h
  · simp only [create_stock_ledger_entry, hfresh, maxByCreated]
    refine invQB_iff.mpr ⟨?_, ?_⟩
    · exact wfB_new_item hwf rfl rfl rfl rfl rfl rfl (by simp) (by simp)
    · show sumInvL (db.items ++ [_]) (db.stock_ledger ++ [_]) = true
      refine sumInv_new_item hwf hsum rfl rfl ?_
      show d.quantity - 0 = d.quantity
      omega

theorem create_transaction_ledger_update {db : DB} {e : LedgerEntry} {tid k : Nat}
    (hwf : wfB db = true) (hid : e.id = k) (hk : db.next_id ≤ k) :
    updateFirst (fun x => decide (x.id = k))
        (fun x => { x with reference_id := some tid }) (db.stock_ledger ++ [e])
      = db.stock_ledger ++ [{ e with reference_id := some tid }] := by
  rw [updateFirst_append_of_no_match [e] ?_]
  · simp [updateFirst, hid]
  · intro x hx
    have := ((wfB_iff.mp hwf).2.1 x hx).1
    simp only [decide_eq_false_iff_not]
    omega

theorem create_transaction_inv (db : DB) (d : TransactionCreate) (a : String)
    (h : invB db = true) : invB (create_transaction db d a).2 = true := by
  rcases invB_iff.mp h with ⟨hwf, hchain, hagree⟩
  cases hfind : find_item db.items d.item_id with
  | none => simp only [create_transaction, hfind]; exact h
  | some item =>
    have hitid := (find_item_mem hfind).2
    by_cases hsale : d.transaction_type = "sale" ∨ d.transaction_type = "issue"
    · by_cases hqty : item.quantity < d.quantity
      · simp only [create_transaction, hfind, if_pos hsale, if_pos hqty]
        exact h
      · simp only [create_transaction, hfind, if_pos hsale, if_neg hqty,
          insert_transaction]
        rw [create_transaction_ledger_update (k := db.next_id) hwf rfl (le_refl _)]
        refine invB_iff.mpr ⟨?_, ?_, ?_⟩
        · exact wfB_apply_delta hwf hfind hitid rfl rfl rfl rfl (by simp) (by simp)
        · show chainInvL (set_item_quantity db.items d.item_id
            (item.quantity - d.quantity)) (db.stock_ledger ++ [_]) = true
          refine chainInv_apply_delta hchain hagree hfind hitid ?_ ?_ ?_
          · show item.quantity - d.quantity = item.quantity + 0 - d.quantity
            omega
          · show ((item.quantity - d.quantity : Int) : ℚ) * item.weight
              = (item.quantity : ℚ) * item.weight + 0
                - item.weight * (d.quantity : ℚ)
            push_cast
            ring
          · show ((item.quantity - d.quantity : Int) : ℚ) * item.selling_price
              = (item.quantity : ℚ) * item.selling_price
                + ((0 : Int) : ℚ) * item.selling_price
                - (d.quantity : ℚ) * item.selling_price
            push_cast
            ring
        · show agreeL (set_item_quantity db.items d.item_id
            (item.quantity - d.quantity)) (db.stock_ledger ++ [_]) = true
          exact agree_apply_delta hwf hagree hfind hitid rfl rfl rfl
    · by_cases hret : d.transaction_type = "return"
      · simp only [create_transaction, hfind, if_neg hsale, if_pos hret,
          insert_transaction]
        rw [create_transaction_ledger_update (k := db.next_id) hwf rfl (le_refl _)]
        refine invB_iff.mpr ⟨?_, ?_, ?_⟩
        · exact wfB_apply_delta hwf hfind hitid rfl rfl rfl rfl (by simp) (by simp)
        · show chainInvL (set_item_quantity db.items d.item_id
            (item.quantity + d.quantity)) (db.stock_ledger ++ [_]) = true
          refine chainInv_apply_delta hchain hagree hfind hitid ?_ ?_ ?_
          · show item.quantity + d.quantity = item.quantity + d.quantity - 0
            omega
          · show ((item.quantity + d.quantity : Int) : ℚ) * item.weight
              = (item.quantity : ℚ) * item.weight
                + item.weight * (d.quantity : ℚ) - 0
            push_cast
            ring
          · show ((item.quantity + d.quantity : Int) : ℚ) * item.selling_price
              = (item.quantity : ℚ) * item.selling_price
                + (d.quantity : ℚ) * item.selling_price
                - ((0 : Int) : ℚ) * item.selling_price
            push_cast
            ring
        · show agreeL (set_item_quantity db.items d.item_id
            (item.quantity + d.quantity)) (db.stock_ledger ++ [_]) = true
          exact agree_apply_delta hwf hagree hfind hitid rfl rfl rfl
      · simp only [create_transaction, hfind, if_neg hsale, if_neg hret,
          insert_transaction]
        exact invB_frame h rfl rfl (Nat.le_succ _) (Nat.le_succ _)

theorem create_transaction_sum (db : DB) (d : TransactionCreate) (a : String)
    (h : invQB db = true) : invQB (create_transaction db d a).2 = true := by
  rcases invQB_iff.mp h with ⟨hwf, hsum⟩
  cases hfind : find_item db.items d.item_id with
  | none => simp only [create_transaction, hfind]; exact h
  | some item =>
    have hitid := (find_item_mem hfind).2
    by_cases hsale : d.transaction_type = "sale" ∨ d.transaction_type = "issue"
    · by_cases hqty : item.quantity < d.quantity
      · simp only [create_transaction, hfind, if_pos hsale, if_pos hqty]
        exact h
      · simp only [create_transaction, hfind, if_pos hsale, if_neg hqty,
          insert_transaction]
        rw [create_transaction_ledger_update (k := db.next_id) hwf rfl (le_refl _)]
        refine invQB_iff.mpr ⟨?_, ?_⟩
        · exact wfB_apply_delta hwf hfind hitid rfl rfl rfl rfl (by simp) (by simp)
        · show sumInvL (set_item_quantity db.items d.item_id
            (item.quantity - d.quantity)) (db.stock_ledger ++ [_]) = true
          refine sumInv_apply_delta hwf hsum hfind hitid ?_
          show (0 : Int) - d.quantity = item.quantity - d.quantity - item.quantity
          omega
    · by_cases hret : d.transaction_type = "return"
      · simp only [create_transaction, hfind, if_neg hsale, if_pos hret,
          insert_transaction]
        rw [create_transaction_ledger_update (k := db.next_id) hwf rfl (le_refl _)]
        refine invQB_iff.mpr ⟨?_, ?_⟩
        · exact wfB_apply_delta hwf hfind hitid rfl rfl rfl rfl (by simp) (by simp)
        · show sumInvL (set_item_quantity db.items d.item_id
            (item.quantity + d.quantity)) (db.stock_ledger ++ [_]) = true
          refine sumInv_apply_delta hwf hsum hfind hitid ?_
          show d.quantity - (0 : Int) = item.quantity + d.quantity - item.quantity
          omega
      · simp only [create_transaction, hfind, if_neg hsale, if_neg hret,
          insert_transaction]
        exact invQB_frame h rfl rfl (Nat.le_succ _) (Nat.le_succ _)

theorem invB_bump (db : DB) (adjs : List StockAdjustment) (h : invB db = true) :
    invB { db with stock_adjustments := adjs,
                   next_id := db.next_id + 1, clock := db.clock + 1 } = true :=
  invB_frame h rfl rfl (Nat.le_succ _) (Nat.le_succ _)

theorem invQB_bump (db : DB) (adjs : List StockAdjustment) (h : invQB db = true) :
    invQB { db with stock_adjustments := adjs,
                    next_id := db.next_id + 1, clock := db.clock + 1 } = true :=
  invQB_frame h rfl rfl (Nat.le_succ _) (Nat.le_succ _)

theorem stepDB_inv (db : DB) (op : Op) (h : invB db = true)
    (hok : opOkB db op = true) : invB (stepDB db op) = true := by
  cases op with
  | createCategory n de =>
    simp only [stepDB, create_category]
    exact invB_frame h rfl rfl (Nat.le_succ _) (Nat.le_succ _)
  | createItem d a => exact create_item_inv db d a h
  | createTransaction d a => exact create_transaction_inv db d a h
  | createAdjustment d a =>
    simp only [stepDB, create_stock_adjustment]
    cases hchk : checkAdjustmentItems db.items d.items with
    | error e => simp only [hchk]; exact h
    | ok u =>
      simp only [hchk]
      exact invB_frame h rfl rfl (Nat.le_succ _) (Nat.le_succ _)
  | approveAdjustment aid a =>
    simp only [stepDB, approve_stock_adjustment]
    cases hfa : find_adjustment db aid with
    | none => simp only [hfa]; exact h
    | some adj =>
      simp only [hfa]
      by_cases hst : adj.status ≠ "pending"
      · rw [if_pos hst]; exact h
      · rw [if_neg hst]
        have hpend : adj.status = "pending" := not_ne_iff.mp hst
        have hok' : adjLinesOkB db.items adj.items = true := by
          simpa [opOkB, hfa, hpend] using hok
        exact invB_frame
          (foldl_applyAdjustmentLine_inv aid adj.reason a adj.items db h hok')
          rfl rfl (le_refl _) (Nat.le_succ _)
  | rejectAdjustment aid a =>
    simp only [stepDB, reject_stock_adjustment]
    cases hfa : find_adjustment db aid with
    | none => simp only [hfa]; exact h
    | some adj =>
      simp only [hfa]
      by_cases hst : adj.status ≠ "pending"
      · rw [if_pos hst]; exact h
      · rw [if_neg hst]
        exact invB_frame h rfl rfl (le_refl _) (le_refl _)
  | createReconciliation d a =>
    simp only [stepDB, create_stock_reconciliation]
    exact invB_frame h rfl rfl (Nat.le_succ _) (Nat.le_succ _)
  | completeReconciliation rid a =>
    simp only [stepDB, complete_stock_reconciliation]
    cases hfr : find_reconciliation db rid with
    | none => simp only [hfr]; exact h
    | some rec_ =>
      simp only [hfr]
      by_cases hst : rec_.status = "completed"
      · rw [if_pos hst]; exact h
      · rw [if_neg hst]
        have hok' : reconLinesOkB db.items
            (buildReconAdjustmentItems db.items rec_.items) = true := by
          simpa [opOkB, hfr, hst] using hok
        by_cases hemp : (buildReconAdjustmentItems db.items rec_.items).isEmpty
        · rw [if_pos hemp]
          exact invB_frame h rfl rfl (le_refl _) (Nat.le_succ _)
        · rw [if_neg hemp]
          exact invB_frame
            (foldl_applyReconciliationLine_inv rid a _ _
              (invB_bump db _ h) hok')
            rfl rfl (le_refl _) (Nat.le_succ _)

theorem stepDB_sum (db : DB) (op : Op) (h : invQB db = true)
    (hok : opQtyOkB db op = true) : invQB (stepDB db op) = true := by
  cases op with
  | createCategory n de =>
    simp only [stepDB, create_category]
    exact invQB_frame h rfl rfl (Nat.le_succ _) (Nat.le_succ _)
  | createItem d a => exact create_item_sum db d a h
  | createTransaction d a => exact create_transaction_sum db d a h
  | createAdjustment d a =>
    simp only [stepDB, create_stock_adjustment]
    cases hchk : checkAdjustmentItems db.items d.items with
    | error e => simp only [hchk]; exact h
    | ok u =>
      simp only [hchk]
      exact invQB_frame h rfl rfl (Nat.le_succ _) (Nat.le_succ _)
  | approveAdjustment aid a =>
    simp only [stepDB, approve_stock_adjustment]
    cases hfa : find_adjustment db aid with
    | none => simp only [hfa]; exact h
    | some adj =>
      simp only [hfa]
      by_cases hst : adj.status ≠ "pending"
      · rw [if_pos hst]; exact h
      · rw [if_neg hst]
        have hpend : adj.status = "pending" := not_ne_iff.mp hst
        have hok' : adjLinesQtyOkB db.items adj.items = true := by
          simpa [opQtyOkB, hfa, hpend] using hok
        exact invQB_frame
          (foldl_applyAdjustmentLine_sum aid adj.reason a adj.items db h hok')
          rfl rfl (le_refl _) (Nat.le_succ _)
  | rejectAdjustment aid a =>
    simp only [stepDB, reject_stock_adjustment]
    cases hfa : find_adjustment db aid with
    | none => simp only [hfa]; exact h
    | some adj =>
      simp only [hfa]
      by_cases hst : adj.status ≠ "pending"
      · rw [if_pos hst]; exact h
      · rw [if_neg hst]
        exact invQB_frame h rfl rfl (le_refl _) (le_refl _)
  | createReconciliation d a =>
    simp only [stepDB, create_stock_reconciliation]
    exact invQB_frame h rfl rfl (Nat.le_succ _) (Nat.le_succ _)
  | completeReconciliation rid a =>
    simp only [stepDB, complete_stock_reconciliation]
    cases hfr : find_reconciliation db rid with
    | none => simp only [hfr]; exact h
    | some rec_ =>
      simp only [hfr]
      by_cases hst : rec_.status = "completed"
      · rw [if_pos hst]; exact h
      · rw [if_neg hst]
        have hok' : adjLinesQtyOkB db.items
            (buildReconAdjustmentItems db.items rec_.items) = true := by
          simpa [opQtyOkB, hfr, hst] using hok
        by_cases hemp : (buildReconAdjustmentItems db.items rec_.items).isEmpty
        · rw [if_pos hemp]
          exact invQB_frame h rfl rfl (le_refl _) (Nat.le_succ _)
        · rw [if_neg hemp]
          exact invQB_frame
            (foldl_applyReconciliationLine_sum rid a _ _
              (invQB_bump db _ h) hok')
            rfl rfl (le_refl _) (Nat.le_succ _)

theorem runOps_inv : ∀ (ops : List Op) (db : DB), invB db = true →
    consistentRunB db ops = true → invB (runOps db ops) = true
  | [], _, h, _ => h
  | op :: ops, db, h, hc => by
    have hc' : opOkB db op = true ∧ consistentRunB (stepDB db op) ops = true := by
      simpa [consistentRunB, Bool.and_eq_true] using hc
    simp only [runOps, List.foldl_cons]
    exact runOps_inv ops (stepDB db op) (stepDB_inv db op h hc'.1) hc'.2

theorem runOps_sum : ∀ (ops : List Op) (db : DB), invQB db = true →
    qtyConsistentRunB db ops = true → invQB (runOps db ops) = true
  | [], _, h, _ => h
  | op :: ops, db, h, hc => by
    have hc' : opQtyOkB db op = true ∧ qtyConsistentRunB (stepDB db op) ops = true := by
      simpa [qtyConsistentRunB, Bool.and_eq_true] using hc
    simp only [runOps, List.foldl_cons]
    exact runOps_sum ops (stepDB db op) (stepDB_sum db op h hc'.1) hc'.2

theorem initDB_inv (y : Nat) : invB (initDB y) = true := rfl

theorem initDB_sum (y : Nat) : invQB (initDB y) = true := rfl

/-! ## Non-negativity preservation (C3) -/

theorem nonNeg_set_item_quantity {its : List Item} {iid : Nat} {nq : Int}
    (h : its.all (fun it => decide (0 ≤ it.quantity)) = true) (hq : 0 ≤ nq) :
    (set_item_quantity its iid nq).all (fun it => decide (0 ≤ it.quantity)) = true := by
  rw [List.all_eq_true]
  intro y hy
  rcases mem_updateFirst hy with hm | ⟨x, hx, _, rfl⟩
  · exact (List.all_eq_true.mp h) y hm
  · exact decide_eq_true hq

theorem nonNegB_congr {db db' : DB} (hi : db'.items = db.items) :
    nonNegB db' = nonNegB db := by
  simp [nonNegB, hi]

theorem applyAdjustmentLine_nonneg (aid : Nat) (r a : String) {db : DB}
    {l : StockAdjustmentItem}
    (h : nonNegB db = true) (hq : 0 ≤ l.adjusted_quantity) :
    nonNegB (applyAdjustmentLine aid r a db l) = true := by
  cases hfind : find_item db.items l.item_id with
  | none => rw [applyAdjustmentLine_none hfind]; exact h
  | some item =>
    simp only [applyAdjustmentLine, hfind]
    show (set_item_quantity db.items l.item_id l.adjusted_quantity).all _ = true
    exact nonNeg_set_item_quantity h hq

theorem applyReconciliationLine_nonneg (rid : Nat) (a : String) {db : DB}
    {l : StockAdjustmentItem}
    (h : nonNegB db = true) (hq : 0 ≤ l.adjusted_quantity) :
    nonNegB (applyReconciliationLine rid a db l) = true := by
  have hset : (set_item_quantity db.items l.item_id l.adjusted_quantity).all
      (fun it => decide (0 ≤ it.quantity)) = true := nonNeg_set_item_quantity h hq
  simp only [applyReconciliationLine]
  cases hfind : find_item (set_item_quantity db.items l.item_id l.adjusted_quantity)
      l.item_id with
  | none => simp only [hfind]; exact hset
  | some it2 => simp only [hfind]; exact hset

theorem foldl_applyAdjustmentLine_nonneg (aid : Nat) (r a : String) :
    ∀ (ls : List StockAdjustmentItem) (db : DB), nonNegB db = true →
      ls.all (fun l => decide (0 ≤ l.adjusted_quantity)) = true →
      nonNegB (ls.foldl (applyAdjustmentLine aid r a) db) = true
  | [], _, h, _ => h
  | l :: ls, db, h, hok => by
    rw [List.all_cons, Bool.and_eq_true] at hok
    simp only [List.foldl_cons]
    exact foldl_applyAdjustmentLine_nonneg aid r a ls _
      (applyAdjustmentLine_nonneg aid r a h (of_decide_eq_true hok.1)) hok.2

theorem foldl_applyReconciliationLine_nonneg (rid : Nat) (a : String) :
    ∀ (ls : List StockAdjustmentItem) (db : DB), nonNegB db = true →
      ls.all (fun l => decide (0 ≤ l.adjusted_quantity)) = true →
      nonNegB (ls.foldl (applyReconciliationLine rid a) db) = true
  | [], _, h, _ => h
  | l :: ls, db, h, hok => by
    rw [List.all_cons, Bool.and_eq_true] at hok
    simp only [List.foldl_cons]
    exact foldl_applyReconciliationLine_nonneg rid a ls _
      (applyReconciliationLine_nonneg rid a h (of_decide_eq_true hok.1)) hok.2

theorem buildRecon_nonneg :
    ∀ (rls : List ReconciliationItem) (its : List Item),
      rls.all (fun rl => decide (0 ≤ rl.physical_quantity)) = true →
      (buildReconAdjustmentItems its rls).all
        (fun l => decide (0 ≤ l.adjusted_quantity)) = true
  | [], _, _ => rfl
  | rl :: rls, its, h => by
    rw [List.all_cons, Bool.and_eq_true] at h
    by_cases hd : rl.difference ≠ 0
    · simp only [buildReconAdjustmentItems, if_pos hd]
      cases hfind : find_item its rl.item_id with
      | none => exact buildRecon_nonneg rls its h.2
      | some it =>
        rw [List.all_cons, Bool.and_eq_true]
        exact ⟨h.1, buildRecon_nonneg rls its h.2⟩
    · simp only [buildReconAdjustmentItems, if_neg hd]
      exact buildRecon_nonneg rls its h.2

theorem stepDB_nonneg (db : DB) (op : Op) (h : nonNegB db = true)
    (hok : opNonNegOkB db op = true) : nonNegB (stepDB db op) = true := by
  cases op with
  | createCategory n de =>
    simp only [stepDB, create_category]
    show db.items.all _ = true
    exact h
  | createItem d a =>
    have hq : 0 ≤ d.quantity := of_decide_eq_true hok
    simp only [stepDB, create_item]
    split_ifs with h1 h2 h3
    · exact h
    · exact h
    · exact h
    · simp only [create_stock_ledger_entry]
      show (db.items ++ [_]).all _ = true
      rw [List.all_append, Bool.and_eq_true]
      refine ⟨h, ?_⟩
      simp only [List.all_cons, List.all_nil, Bool.and_true]
      exact decide_eq_true hq
  | createTransaction d a =>
    simp only [stepDB]
    cases hfind : find_item db.items d.item_id with
    | none => simp only [create_transaction, hfind]; exact h
    | some item =>
      have hqpos : 0 ≤ item.quantity :=
        of_decide_eq_true ((List.all_eq_true.mp h) item (find_item_mem hfind).1)
      by_cases hsale : d.transaction_type = "sale" ∨ d.transaction_type = "issue"
      · by_cases hqty : item.quantity < d.quantity
        · simp only [create_transaction, hfind, if_pos hsale, if_pos hqty]
          exact h
        · simp only [create_transaction, hfind, if_pos hsale, if_neg hqty,
            insert_transaction]
          show (set_item_quantity db.items d.item_id (item.quantity - d.quantity)).all
            _ = true
          exact nonNeg_set_item_quantity h (by omega)
      · by_cases hret : d.transaction_type = "return"
        · have hdq : 0 ≤ d.quantity := by
            rcases Bool.or_eq_true _ _ |>.mp hok with h1 | h1
            · exact absurd hret (of_decide_eq_true h1)
            · exact of_decide_eq_true h1
          simp only [create_transaction, hfind, if_neg hsale, if_pos hret,
            insert_transaction]
          show (set_item_quantity db.items d.item_id (item.quantity + d.quantity)).all
            _ = true
          exact nonNeg_set_item_quantity h (by omega)
        · simp only [create_transaction, hfind, if_neg hsale, if_neg hret,
            insert_transaction]
          show db.items.all _ = true
          exact h
  | createAdjustment d a =>
    simp only [stepDB, create_stock_adjustment]
    cases hchk : checkAdjustmentItems db.items d.items with
    | error e => simp only [hchk]; exact h
    | ok u => simp only [hchk]; show db.items.all _ = true; exact h
  | approveAdjustment aid a =>
    simp only [stepDB, approve_stock_adjustment]
    cases hfa : find_adjustment db aid with
    | none => simp only [hfa]; exact h
    | some adj =>
      simp only [hfa]
      by_cases hst : adj.status ≠ "pending"
      · rw [if_pos hst]; exact h
      · rw [if_neg hst]
        have hok' : adj.items.all (fun l => decide (0 ≤ l.adjusted_quantity)) = true := by
          simpa [opNonNegOkB, hfa] using hok
        exact foldl_applyAdjustmentLine_nonneg aid adj.reason a adj.items db h hok'
  | rejectAdjustment aid a =>
    simp only [stepDB, reject_stock_adjustment]
    cases hfa : find_adjustment db aid with
    | none => simp only [hfa]; exact h
    | some adj =>
      simp only [hfa]
      by_cases hst : adj.status ≠ "pending"
      · rw [if_pos hst]; exact h
      · rw [if_neg hst]
        show db.items.all _ = true
        exact h
  | createReconciliation d a =>
    simp only [stepDB, create_stock_reconciliation]
    show db.items.all _ = true
    exact h
  | completeReconciliation rid a =>
    simp only [stepDB, complete_stock_reconciliation]
    cases hfr : find_reconciliation db rid with
    | none => simp only [hfr]; exact h
    | some rec_ =>
      simp only [hfr]
      by_cases hst : rec_.status = "completed"
      · rw [if_pos hst]; exact h
      · rw [if_neg hst]
        have hok' : rec_.items.all (fun rl => decide (0 ≤ rl.physical_quantity))
            = true := by
          simpa [opNonNegOkB, hfr] using hok
        have hblt := buildRecon_nonneg rec_.items db.items hok'
        by_cases hemp : (buildReconAdjustmentItems db.items rec_.items).isEmpty
        · rw [if_pos hemp]
          show db.items.all _ = true
          exact h
        · rw [if_neg hemp]
          refine foldl_applyReconciliationLine_nonneg rid a
            (buildReconAdjustmentItems db.items rec_.items) _ ?_ hblt
          exact h

/-! ## Facts about the approve loop (for C4) -/

theorem applyAdjustmentLine_adjustments (aid : Nat) (r a : String) (db : DB)
    (l : StockAdjustmentItem) :
    (applyAdjustmentLine aid r a db l).stock_adjustments = db.stock_adjustments := by
  cases h : find_item db.items l.item_id <;> simp [applyAdjustmentLine, h]

theorem foldl_adjustments_frame (aid : Nat) (r a : String) :
    ∀ (ls : List StockAdjustmentItem) (db : DB),
      (ls.foldl (applyAdjustmentLine aid r a) db).stock_adjustments
        = db.stock_adjustments
  | [], _ => rfl
  | l :: ls, db => by
    simp only [List.foldl_cons]
    rw [foldl_adjustments_frame aid r a ls _, applyAdjustmentLine_adjustments]

theorem find_item_applyLine_isSome (its : List Item) (l : StockAdjustmentItem)
    (iid : Nat) :
    (find_item (applyLineItems its l) iid).isSome = (find_item its iid).isSome := by
  cases h : find_item its l.item_id with
  | none => simp [applyLineItems, h]
  | some it =>
    simp only [applyLineItems, h]
    by_cases hiid : iid = l.item_id
    · subst hiid
      rw [find_item_set_self h, h]
      rfl
    · rw [find_item_set_ne hiid]

theorem find_item_applyLine_ne (its : List Item) (l : StockAdjustmentItem)
    {iid : Nat} (hne : iid ≠ l.item_id) :
    find_item (applyLineItems its l) iid = find_item its iid := by
  cases h : find_item its l.item_id with
  | none => simp [applyLineItems, h]
  | some it =>
    simp only [applyLineItems, h]
    exact find_item_set_ne hne _

theorem foldl_find_untouched (aid : Nat) (r a : String) :
    ∀ (ls : List StockAdjustmentItem) (db : DB) (iid : Nat),
      (∀ l ∈ ls, l.item_id ≠ iid) →
      find_item (ls.foldl (applyAdjustmentLine aid r a) db).items iid
        = find_item db.items iid
  | [], _, _, _ => rfl
  | l :: ls, db, iid, h => by
    simp only [List.foldl_cons]
    rw [foldl_find_untouched aid r a ls _ iid
      (fun x hx => h x (List.mem_cons_of_mem l hx))]
    rw [applyAdjustmentLine_items]
    exact find_item_applyLine_ne db.items l
      (fun he => h l (List.mem_cons_self l ls) he.symm)

theorem foldl_ledger_length (aid : Nat) (r a : String) :
    ∀ (ls : List StockAdjustmentItem) (db : DB),
      (∀ l ∈ ls, (find_item db.items l.item_id).isSome = true) →
      (ls.foldl (applyAdjustmentLine aid r a) db).stock_ledger.length
        = db.stock_ledger.length + ls.length
  | [], _, _ => rfl
  | l :: ls, db, h => by
    simp only [List.foldl_cons]
    cases hfind : find_item db.items l.item_id with
    | none =>
      exact absurd (h l (List.mem_cons_self l ls)) (by rw [hfind]; simp)
    | some item =>
      have hlen : (applyAdjustmentLine aid r a db l).stock_ledger.length
          = db.stock_ledger.length + 1 := by
        simp [applyAdjustmentLine, hfind]
      have hex : ∀ x ∈ ls, (find_item (applyAdjustmentLine aid r a db l).items
          x.item_id).isSome = true := by
        intro x hx
        rw [applyAdjustmentLine_items, find_item_applyLine_isSome]
        exact h x (List.mem_cons_of_mem l hx)
      rw [foldl_ledger_length aid r a ls _ hex, hlen]
      simp only [List.length_cons]
      omega

theorem foldl_quantity (aid : Nat) (r a : String) :
    ∀ (ls : List StockAdjustmentItem) (db : DB) (l : StockAdjustmentItem),
      l ∈ ls → nodupKeys (ls.map (·.item_id)) = true →
      (find_item db.items l.item_id).isSome = true →
      ∃ it, find_item (ls.foldl (applyAdjustmentLine aid r a) db).items l.item_id
          = some it ∧ it.quantity = l.adjusted_quantity
  | [], _, _, hm, _, _ => absurd hm (List.not_mem_nil _)
  | x :: ls, db, l, hm, hnd, hsome => by
    rcases nodupKeys_cons (by simpa using hnd) with ⟨hc, hnd'⟩
    simp only [List.foldl_cons]
    rcases List.mem_cons.mp hm with rfl | hmem
    · cases hfind : find_item db.items l.item_id with
      | none => rw [hfind] at hsome; cases hsome
      | some item =>
        have hafter : find_item (applyAdjustmentLine aid r a db l).items l.item_id
            = some { item with quantity := l.adjusted_quantity } := by
          rw [applyAdjustmentLine_items]
          simp only [applyLineItems, hfind]
          exact find_item_set_self hfind _
        rw [foldl_find_untouched aid r a ls _ l.item_id ?_, hafter]
        · exact ⟨_, rfl, rfl⟩
        · intro y hy he
          exact not_mem_keys_of_contains_false hc
            (he ▸ List.mem_map_of_mem (·.item_id) hy)
    · have hsome' : (find_item (applyAdjustmentLine aid r a db x).items
          l.item_id).isSome = true := by
        rw [applyAdjustmentLine_items, find_item_applyLine_isSome]
        exact hsome
      exact foldl_quantity aid r a ls _ l hmem hnd' hsome'

/-! ## Claim C1 — running-balance chain -/

/-- C1 (counterexample): taken as stated the claim is false.  The core
operations include creating an adjustment from client-supplied line data, and
`create_stock_adjustment` persists the lines without checking that
`quantity_difference` matches `adjusted_quantity - item.quantity`.  Approving
`dishonestLine` (overwrite 10 → 5 while declaring a difference of −3) yields an
entry with `running_quantity = 5` after a predecessor with
`running_quantity = 10` and `quantity_out = 3`: the chain invariant fails. -/
theorem C1_counterexample :
    chainInvB (runOps (initDB 2026) dishonestRun) = false := by decide

/-- C1 (amended): for every item, after any sequence of core operations
(item creation with opening stock, sale/issue/return transactions, adjustment
approval, reconciliation completion) **in which every applied adjustment or
reconciliation line is honest at apply time** (its `quantity_difference` equals
`adjusted_quantity` minus the item's current quantity, its `weight_difference`
is that difference times the item's unit weight, its `unit_cost` is the item's
selling price, and — for reconciliation lines — its `adjusted_weight` is the
target quantity times the unit weight), the item's ledger entries ordered by
creation time form a chain in which
`running_quantity[n] = running_quantity[n-1] + quantity_in[n] - quantity_out[n]`,
analogously for `running_weight` with the weight deltas and for `running_value`
with `(quantity_in - quantity_out) * unit_cost`, the first entry chaining from
zero.  (Stored order is creation order: well-formedness gives strictly
increasing `created_at`.) -/
theorem C1_running_balance_chain (year : Nat) (ops : List Op)
    (h : consistentRunB (initDB year) ops = true) :
    chainInvB (runOps (initDB year) ops) = true :=
  (invB_iff.mp (runOps_inv ops (initDB year) (initDB_inv year) h)).2.1

/-- C1 witness: a concrete consistent run — opening stock 10, sale of 3,
reconciliation counting 5 — satisfies the hypothesis, and the chain invariant
holds in the final store. -/
theorem C1_running_balance_chain_witness :
    consistentRunB (initDB 2026) honestRun = true ∧
    chainInvB (runOps (initDB 2026) honestRun) = true :=
  ⟨by decide, C1_running_balance_chain 2026 honestRun (by decide)⟩

/-! ## Claim C2 — registry quantity equals ledger sum -/

/-- C2 (counterexample): the same dishonest adjustment breaks
`item.quantity = Σ(quantity_in - quantity_out)`: after approval the item's
quantity is 5 while the ledger sums to 10 − 3 = 7. -/
theorem C2_counterexample :
    sumInvB (runOps (initDB 2026) dishonestRun) = false := by decide

/-- C2 (amended): for every item, after any sequence of core operations from the
empty store **in which every applied adjustment or reconciliation line's
`quantity_difference` equals `adjusted_quantity` minus the item's current
quantity at apply time**, the item's current quantity equals the sum of
`quantity_in - quantity_out` over all of that item's ledger entries. -/
theorem C2_registry_equals_ledger_sum (year : Nat) (ops : List Op)
    (h : qtyConsistentRunB (initDB year) ops = true) :
    sumInvB (runOps (initDB year) ops) = true :=
  (invQB_iff.mp (runOps_sum ops (initDB year) (initDB_sum year) h)).2

/-- C2 witness: the honest run satisfies the quantity-consistency hypothesis and
the registry-equals-sum invariant holds in its final store. -/
theorem C2_registry_equals_ledger_sum_witness :
    qtyConsistentRunB (initDB 2026) honestRun = true ∧
    sumInvB (runOps (initDB 2026) honestRun) = true :=
  ⟨by decide, C2_registry_equals_ledger_sum 2026 honestRun (by decide)⟩

/-! ## Claim C3 — non-negative quantities -/

/-- C3 (counterexample): two unguarded paths drive stock negative from states
where every quantity is ≥ 0.  Approving an adjustment whose line carries
`adjusted_quantity = -5` overwrites the item's quantity with −5
(`StockAdjustmentItem.adjusted_quantity` is an unconstrained `int`), and a
`return` transaction with quantity −20 lowers the ten-piece item to −10
(`transactions/routes.py` 58 adds the client-supplied quantity with no sign
check).  The second path involves no adjustment or reconciliation line at all;
the amended hypothesis `opNonNegOkB` is false there, as it must be. -/
theorem C3_counterexample :
    nonNegB (runOps (initDB 2026) negativePrefix) = true ∧
    nonNegB (stepDB (runOps (initDB 2026) negativePrefix)
      (.approveAdjustment 3 "boss")) = false ∧
    nonNegB (runOps (initDB 2026) itemOnlyRun) = true ∧
    nonNegB (stepDB (runOps (initDB 2026) itemOnlyRun)
      (.createTransaction negativeReturn "clerk")) = false ∧
    opNonNegOkB (runOps (initDB 2026) itemOnlyRun)
      (.createTransaction negativeReturn "clerk") = false := by decide

/-- C3 (amended): starting from a state where all item quantities are ≥ 0, a
core operation leaves every quantity ≥ 0 **provided** opening-stock and return
quantities are non-negative and every line of an applied adjustment
(`adjusted_quantity`) or reconciliation (`physical_quantity`) targets a
non-negative quantity; sales and issues need no extra condition thanks to the
insufficient-quantity guard. -/
theorem C3_nonnegative_preserved (db : DB) (op : Op)
    (h : nonNegB db = true) (hok : opNonNegOkB db op = true) :
    nonNegB (stepDB db op) = true :=
  stepDB_nonneg db op h hok

/-- C3 witness: approving the honest pending decrease (target quantity 7) in the
concrete store keeps every quantity non-negative. -/
theorem C3_nonnegative_preserved_witness :
    nonNegB (runOps (initDB 2026) pendingAdjPrefix) = true ∧
    opNonNegOkB (runOps (initDB 2026) pendingAdjPrefix)
      (.approveAdjustment 3 "boss") = true ∧
    nonNegB (stepDB (runOps (initDB 2026) pendingAdjPrefix)
      (.approveAdjustment 3 "boss")) = true :=
  ⟨by decide, by decide,
   C3_nonnegative_preserved (runOps (initDB 2026) pendingAdjPrefix)
     (.approveAdjustment 3 "boss") (by decide) (by decide)⟩

/-! ## Claim C4 — approve twice / terminal transitions -/

/-- C4: approving a pending adjustment succeeds (the second, identical call
fails with `InvalidState` and changes nothing); the first call marks the
adjustment `completed`, appends exactly one ledger entry per line, and
overwrites each referenced item's quantity with the line's target exactly once.
More generally `pending → completed` (approve) and `pending → rejected`
(reject) are the only transitions: approve and reject fail with `InvalidState`
and zero mutation on any non-`pending` adjustment, so both outcomes are
terminal and no adjustment is approved or rejected twice. -/
theorem C4_approve_twice (db : DB) (adjId : Nat) (a1 a2 : String)
    (hpend : adjStatus db adjId = some "pending")
    (hex : adjItemsExist db adjId = true)
    (hnd : adjItemsNodup db adjId = true) :
    (∃ m, (approve_stock_adjustment db adjId a1).1 = .ok m) ∧
    adjStatus (approve_stock_adjustment db adjId a1).2 adjId = some "completed" ∧
    approve_stock_adjustment (approve_stock_adjustment db adjId a1).2 adjId a2
      = (.error .invalidState, (approve_stock_adjustment db adjId a1).2) ∧
    (approve_stock_adjustment db adjId a1).2.stock_ledger.length
      = db.stock_ledger.length + numAdjLines db adjId ∧
    (∀ adj l, find_adjustment db adjId = some adj → l ∈ adj.items →
      ∃ it, find_item (approve_stock_adjustment db adjId a1).2.items l.item_id
          = some it ∧ it.quantity = l.adjusted_quantity) ∧
    (∀ (dbX : DB) (i : Nat) (s : String) (adj : StockAdjustment),
      find_adjustment dbX i = some adj → adj.status ≠ "pending" →
      approve_stock_adjustment dbX i s = (.error .invalidState, dbX) ∧
      reject_stock_adjustment dbX i s = (.error .invalidState, dbX)) ∧
    (∀ (dbX : DB) (i : Nat) (s : String),
      adjStatus dbX i = some "pending" →
      adjStatus (reject_stock_adjustment dbX i s).2 i = some "rejected") := by
  cases hfa : find_adjustment db adjId with
  | none => simp [adjStatus, hfa] at hpend
  | some adj =>
    have hst : adj.status = "pending" := by
      simp only [adjStatus, hfa] at hpend
      simpa using hpend
    have hex' : ∀ l ∈ adj.items, (find_item db.items l.item_id).isSome = true := by
      rw [adjItemsExist, hfa, List.all_eq_true] at hex
      exact hex
    have hnd' : nodupKeys (adj.items.map (·.item_id)) = true := by
      rw [adjItemsNodup, hfa] at hnd
      exact hnd
    have hfa' : db.stock_adjustments.find? (fun x => decide (x.id = adjId))
        = some adj := hfa
    obtain ⟨c, hfa1⟩ : ∃ c, find_adjustment (approve_stock_adjustment db adjId a1).2
        adjId = some
          { adj with
            status := "completed", approved_by := some a1,
            approved_at := some c } := by
      refine ⟨(adj.items.foldl (applyAdjustmentLine adjId adj.reason a1) db).clock, ?_⟩
      simp only [approve_stock_adjustment, hfa]
      rw [if_neg (by simp [hst])]
      simp only [find_adjustment]
      rw [foldl_adjustments_frame]
      refine (find?_updateFirst_same _ _ ?_ _).trans ?_
      · exact fun x => rfl
      · rw [hfa']
        rfl
    refine ⟨?_, ?_, ?_, ?_, ?_, ?_, ?_⟩
    · refine ⟨"Adjustment approved and applied successfully", ?_⟩
      simp only [approve_stock_adjustment, hfa]
      rw [if_neg (by simp [hst])]
    · rw [adjStatus, hfa1]
      rfl
    · obtain ⟨dbY, hY⟩ : ∃ dbY, (approve_stock_adjustment db adjId a1).2 = dbY :=
        ⟨_, rfl⟩
      rw [hY] at hfa1 ⊢
      simp only [approve_stock_adjustment, hfa1]
      simp
    · simp only [approve_stock_adjustment, hfa]
      rw [if_neg (by simp [hst])]
      show (adj.items.foldl (applyAdjustmentLine adjId adj.reason a1)
        db).stock_ledger.length = _
      rw [foldl_ledger_length adjId adj.reason a1 adj.items db hex', numAdjLines, hfa]
    · intro adj2 l hfa2 hl
      cases hfa2
      simp only [approve_stock_adjustment, hfa]
      rw [if_neg (by simp [hst])]
      exact foldl_quantity adjId adj.reason a1 adj.items db l hl hnd' (hex' l hl)
    · intro dbX i s adj2 hfa2 hst2
      constructor
      · simp only [approve_stock_adjustment, hfa2]
        rw [if_pos hst2]
      · simp only [reject_stock_adjustment, hfa2]
        rw [if_pos hst2]
    · intro dbX i s hp
      cases hfa2 : find_adjustment dbX i with
      | none => simp [adjStatus, hfa2] at hp
      | some adj2 =>
        have hst2 : adj2.status = "pending" := by
          simp only [adjStatus, hfa2] at hp
          simpa using hp
        have hfa2' : dbX.stock_adjustments.find? (fun x => decide (x.id = i))
            = some adj2 := hfa2
        simp only [reject_stock_adjustment, hfa2]
        rw [if_neg (by simp [hst2])]
        simp only [adjStatus, find_adjustment]
        rw [find?_updateFirst_same (fun a => decide (a.id = i))
          (fun a => { a with status := "rejected" }) (fun x => rfl)
          dbX.stock_adjustments]
        rw [hfa2']
        rfl

/-- C4 witness: the concrete store with the pending decrease adjustment (id 3)
satisfies the hypotheses, and all conclusions follow at it. -/
theorem C4_approve_twice_witness :
    adjStatus (runOps (initDB 2026) pendingAdjPrefix) 3 = some "pending" ∧
    (∃ m, (approve_stock_adjustment (runOps (initDB 2026) pendingAdjPrefix) 3
      "boss").1 = .ok m) ∧
    approve_stock_adjustment
        (approve_stock_adjustment (runOps (initDB 2026) pendingAdjPrefix) 3
          "boss").2 3 "boss2"
      = (.error .invalidState,
         (approve_stock_adjustment (runOps (initDB 2026) pendingAdjPrefix) 3
           "boss").2) :=
  have h := C4_approve_twice (runOps (initDB 2026) pendingAdjPrefix) 3 "boss" "boss2"
    (by decide) (by decide) (by decide)
  ⟨by decide, h.1, h.2.2.1⟩

/-! ## Claim C5 — reconciliation completion refines approve per line -/

/-- C5: for a synthesized line with non-zero difference built from a stored
count line `rl` and the item's current record `it` (with the stored
`unit_price` equal to the item's selling price, as `create_stock_reconciliation`
records it), the per-line apply step of `complete_stock_reconciliation`
performs the identical item mutation as the per-line apply step of
`approve_stock_adjustment` — the same quantity overwrite to
`adjusted_quantity` — and appends one ledger entry agreeing with approve's on
`quantity_in`/`quantity_out`, `weight_in`/`weight_out`, `unit_cost`,
`total_value = |value_difference|` and all three running balances. -/
theorem C5_reconciliation_applies_like_approve (db : DB) (rl : ReconciliationItem)
    (it : Item) (recId adjId : Nat) (reason actorR actorA : String)
    (_hdz : rl.difference ≠ 0)
    (hit : find_item db.items rl.item_id = some it)
    (hup : rl.unit_price = it.selling_price) :
    (applyReconciliationLine recId actorR db (buildReconAdjustmentItem rl it)).items
      = (applyAdjustmentLine adjId reason actorA db
          (buildReconAdjustmentItem rl it)).items ∧
    (find_item (applyReconciliationLine recId actorR db
        (buildReconAdjustmentItem rl it)).items rl.item_id).map (fun x => x.quantity)
      = some rl.physical_quantity ∧
    ∃ eR eA : LedgerEntry,
      (applyReconciliationLine recId actorR db
          (buildReconAdjustmentItem rl it)).stock_ledger
        = db.stock_ledger ++ [eR] ∧
      (applyAdjustmentLine adjId reason actorA db
          (buildReconAdjustmentItem rl it)).stock_ledger
        = db.stock_ledger ++ [eA] ∧
      eR.quantity_in = eA.quantity_in ∧
      eR.quantity_out = eA.quantity_out ∧
      eR.weight_in = eA.weight_in ∧
      eR.weight_out = eA.weight_out ∧
      eR.unit_cost = eA.unit_cost ∧
      eR.total_value = |rl.value_difference| ∧
      eA.total_value = |rl.value_difference| ∧
      eR.running_quantity = eA.running_quantity ∧
      eR.running_weight = eA.running_weight ∧
      eR.running_value = eA.running_value := by
  have hsf := find_item_set_self hit rl.physical_quantity
  simp only [applyReconciliationLine, applyAdjustmentLine, buildReconAdjustmentItem,
    hsf, hit]
  refine ⟨True.intro, rfl, _, _, rfl, rfl, rfl, rfl, rfl, rfl, rfl, rfl, rfl, rfl,
    rfl, ?_⟩
  show (rl.physical_quantity : ℚ) * rl.unit_price
      = (rl.physical_quantity : ℚ) * it.selling_price
  rw [hup]

/-- C5 witness: the stored count line `c5Line` (counted 5 against system 7) on
the one-item store `c5DB`. -/
theorem C5_reconciliation_applies_like_approve_witness :
    (applyReconciliationLine 7 "boss" c5DB (buildReconAdjustmentItem c5Line c5Item)).items
      = (applyAdjustmentLine 8 "count_correction" "boss" c5DB
          (buildReconAdjustmentItem c5Line c5Item)).items ∧
    (find_item (applyReconciliationLine 7 "boss" c5DB
        (buildReconAdjustmentItem c5Line c5Item)).items c5Line.item_id).map
        (fun x => x.quantity) = some c5Line.physical_quantity :=
  have h := C5_reconciliation_applies_like_approve c5DB c5Line c5Item 7 8
    "count_correction" "boss" "boss" (by decide) (by decide) (by decide)
  ⟨h.1, h.2.1⟩

/-! ## Claim C6 — zero-discrepancy completion is a no-op -/

theorem buildReconAdjustmentItems_nil (its : List Item) :
    ∀ rls : List ReconciliationItem, (∀ l ∈ rls, l.difference = 0) →
      buildReconAdjustmentItems its rls = []
  | [], _ => rfl
  | rl :: rls, h => by
    have h0 : rl.difference = 0 := h rl (List.mem_cons_self _ _)
    simp only [buildReconAdjustmentItems]
    rw [if_neg (by simp [h0])]
    exact buildReconAdjustmentItems_nil its rls
      (fun l hl => h l (List.mem_cons_of_mem _ hl))

/-- C6: completing a stored reconciliation that is not yet `completed` and all
of whose count lines have `difference = 0` succeeds, creates no adjustment
document, appends no ledger entries, leaves every item record unchanged, and
stores the reconciliation as `completed` with the completing actor and the
completion timestamp recorded. -/
theorem C6_zero_diff_completion (db : DB) (recId : Nat) (actor : String)
    (r : StockReconciliation)
    (hfr : find_reconciliation db recId = some r)
    (hst : ¬ r.status = "completed")
    (hz : ∀ l ∈ r.items, l.difference = 0) :
    (∃ m, (complete_stock_reconciliation db recId actor).1 = .ok m) ∧
    (complete_stock_reconciliation db recId actor).2.stock_adjustments
      = db.stock_adjustments ∧
    (complete_stock_reconciliation db recId actor).2.stock_ledger
      = db.stock_ledger ∧
    (complete_stock_reconciliation db recId actor).2.items = db.items ∧
    find_reconciliation (complete_stock_reconciliation db recId actor).2 recId
      = some { r with
          status := "completed", completed_by := some actor,
          completed_at := some db.clock } := by
  have hbe : buildReconAdjustmentItems db.items r.items = [] :=
    buildReconAdjustmentItems_nil db.items r.items hz
  have hfr' : db.stock_reconciliations.find? (fun x => decide (x.id = recId))
      = some r := hfr
  simp only [complete_stock_reconciliation, hfr]
  rw [if_neg hst]
  simp only [hbe, List.isEmpty_nil, if_true]
  refine ⟨⟨"Reconciliation completed and adjustments applied", rfl⟩, True.intro,
    True.intro, True.intro, ?_⟩
  simp only [find_reconciliation]
  rw [find?_updateFirst_same (fun x => decide (x.id = recId))
    (fun x => { x with
      status := "completed", completed_by := some actor,
      completed_at := some db.clock }) (fun x => rfl)
    db.stock_reconciliations]
  rw [hfr']
  rfl

/-- C6 witness: the draft reconciliation of `zeroDiffRun` (one count line,
counted 10 against system 10). -/
theorem C6_zero_diff_completion_witness :
    (complete_stock_reconciliation (runOps (initDB 2026) zeroDiffRun) 3
        "boss").2.stock_ledger
      = (runOps (initDB 2026) zeroDiffRun).stock_ledger ∧
    (complete_stock_reconciliation (runOps (initDB 2026) zeroDiffRun) 3
        "boss").2.stock_adjustments
      = (runOps (initDB 2026) zeroDiffRun).stock_adjustments ∧
    (complete_stock_reconciliation (runOps (initDB 2026) zeroDiffRun) 3
        "boss").2.items
      = (runOps (initDB 2026) zeroDiffRun).items ∧
    recStatus (complete_stock_reconciliation (runOps (initDB 2026) zeroDiffRun) 3
        "boss").2 3 = some "completed" :=
  have h := C6_zero_diff_completion (runOps (initDB 2026) zeroDiffRun) 3 "boss"
    zeroDiffRec (by decide) (by decide) (by decide)
  ⟨h.2.2.1, h.2.1, h.2.2.2.1, by rw [recStatus, h.2.2.2.2]; rfl⟩

/-! ## Claim C7 — adjustment creation: atomicity, aggregates, numbering -/

theorem checkAdjustmentItems_err (its : List Item) :
    ∀ ls : List StockAdjustmentItem, (∃ l ∈ ls, find_item its l.item_id = none) →
      checkAdjustmentItems its ls = .error .notFound
  | [], h => by
    obtain ⟨l, hl, _⟩ := h
    exact absurd hl (List.not_mem_nil l)
  | l :: ls, h => by
    cases hf : find_item its l.item_id with
    | none => simp [checkAdjustmentItems, hf]
    | some it =>
      obtain ⟨l0, hl0, hn0⟩ := h
      rcases List.mem_cons.mp hl0 with h1 | h1
      · subst h1
        rw [hf] at hn0
        cases hn0
      · simp only [checkAdjustmentItems, hf]
        exact checkAdjustmentItems_err its ls ⟨l0, h1, hn0⟩

theorem checkAdjustmentItems_ok (its : List Item) :
    ∀ ls : List StockAdjustmentItem,
      (∀ l ∈ ls, (find_item its l.item_id).isSome = true) →
      checkAdjustmentItems its ls = .ok ()
  | [], _ => rfl
  | l :: ls, h => by
    have h0 := h l (List.mem_cons_self _ _)
    cases hf : find_item its l.item_id with
    | none =>
      rw [hf] at h0
      simp at h0
    | some it =>
      simp only [checkAdjustmentItems, hf]
      exact checkAdjustmentItems_ok its ls (fun x hx => h x (List.mem_cons_of_mem _ hx))

/-- C7: if any line of an adjustment-creation request references a missing
item, the whole request fails with `NotFound` and the store is unchanged — no
partial persistence; if every line's item exists, exactly one adjustment is
persisted with status `pending`, totals `Σ|quantity_difference|`,
`Σ|weight_difference|`, `Σ|value_difference|` over its lines, and sequence
number `ADJ-{year}-{count+1 zero-padded to five digits}`. -/
theorem C7_create_adjustment (db : DB) (d : StockAdjustmentCreate) (actor : String) :
    ((∃ l ∈ d.items, find_item db.items l.item_id = none) →
      create_stock_adjustment db d actor = (.error .notFound, db)) ∧
    ((∀ l ∈ d.items, (find_item db.items l.item_id).isSome = true) →
      ∃ adj : StockAdjustment,
        create_stock_adjustment db d actor
          = (.ok adj,
             { db with
               stock_adjustments := db.stock_adjustments ++ [adj],
               next_id := db.next_id + 1, clock := db.clock + 1 }) ∧
        adj.status = "pending" ∧
        adj.adjustment_number = adjNumber db.year (db.stock_adjustments.length + 1) ∧
        adj.total_quantity_adjusted
          = (d.items.map (fun l => |l.quantity_difference|)).sum ∧
        adj.total_weight_adjusted
          = (d.items.map (fun l => |l.weight_difference|)).sum ∧
        adj.total_value_adjusted
          = (d.items.map (fun l => |l.value_difference|)).sum ∧
        adj.items = d.items) := by
  constructor
  · intro h
    have herr : checkAdjustmentItems db.items d.items = .error .notFound :=
      checkAdjustmentItems_err db.items d.items h
    simp only [create_stock_adjustment, herr]
  · intro h
    have hok : checkAdjustmentItems db.items d.items = .ok () :=
      checkAdjustmentItems_ok db.items d.items h
    simp only [create_stock_adjustment, hok]
    exact ⟨_, rfl, rfl, rfl, rfl, rfl, rfl, rfl⟩

/-- C7 witness: on the one-item store `c5DB` (item id 1), a request whose line
references missing item 99 fails atomically, and the same request on the
existing item persists a pending `ADJ-2026-00001` adjustment. -/
theorem C7_create_adjustment_witness :
    create_stock_adjustment c5DB
        { adjustment_type := "decrease", reason := "loss",
          items := [orphanLine], notes := none } "clerk"
      = (.error .notFound, c5DB) ∧
    ∃ adj : StockAdjustment,
      (create_stock_adjustment c5DB
          { adjustment_type := "decrease", reason := "loss",
            items := [dishonestLine], notes := none } "clerk").1 = .ok adj ∧
      adj.status = "pending" ∧
      adj.adjustment_number = "ADJ-2026-00001" := by
  refine ⟨(C7_create_adjustment c5DB _ "clerk").1 ⟨_, List.mem_cons_self _ _, by decide⟩, ?_⟩
  obtain ⟨adj, heq, hst, hnum, -⟩ :=
    (C7_create_adjustment c5DB
      { adjustment_type := "decrease", reason := "loss",
        items := [dishonestLine], notes := none } "clerk").2 (by decide)
  exact ⟨adj, by rw [heq], hst, by rw [hnum]; decide⟩

/-! ## Claim C8 — batch application is reported per line? -/

/-- C8 (counterexample): taken as stated the claim is false.  Approving the
pending adjustment of `orphanedAdjDB`, whose only line references a missing
item, returns the same constant success message as a fully applied batch and
marks the adjustment `completed`, while the line was silently skipped: no
ledger entry is appended and no item is touched.  Nothing in the response
distinguishes applied, skipped and failed lines. -/
theorem C8_counterexample :
    (approve_stock_adjustment orphanedAdjDB 1 "boss").1
      = .ok "Adjustment approved and applied successfully" ∧
    (approve_stock_adjustment orphanedAdjDB 1 "boss").2.stock_ledger = [] ∧
    (approve_stock_adjustment orphanedAdjDB 1 "boss").2.items = [] ∧
    adjStatus (approve_stock_adjustment orphanedAdjDB 1 "boss").2 1
      = some "completed" :=
  ⟨rfl, by decide, by decide, by decide⟩

/-- C8 (amended): the batch operations report nothing per line.  Approving any
pending adjustment yields one constant success string carrying no per-line
information; a line whose item is missing is skipped with zero mutation;
completing any stored non-completed reconciliation likewise yields one
constant string, and its line synthesis silently drops a non-zero-difference
count line whose item is missing. -/
theorem C8_undifferentiated_success (db : DB) (adjId : Nat) (actor : String)
    (hpend : adjStatus db adjId = some "pending") :
    (approve_stock_adjustment db adjId actor).1
      = .ok "Adjustment approved and applied successfully" ∧
    (∀ (db2 : DB) (reason : String) (l : StockAdjustmentItem),
      find_item db2.items l.item_id = none →
      applyAdjustmentLine adjId reason actor db2 l = db2) ∧
    (∀ (db3 : DB) (recId : Nat) (r : StockReconciliation),
      find_reconciliation db3 recId = some r → ¬ r.status = "completed" →
      (complete_stock_reconciliation db3 recId actor).1
        = .ok "Reconciliation completed and adjustments applied") ∧
    (∀ (its : List Item) (rl : ReconciliationItem) (rls : List ReconciliationItem),
      rl.difference ≠ 0 → find_item its rl.item_id = none →
      buildReconAdjustmentItems its (rl :: rls) = buildReconAdjustmentItems its rls) := by
  refine ⟨?_, ?_, ?_, ?_⟩
  · cases hfa : find_adjustment db adjId with
    | none => simp [adjStatus, hfa] at hpend
    | some adj =>
      have hst : adj.status = "pending" := by
        simp only [adjStatus, hfa] at hpend
        simpa using hpend
      simp only [approve_stock_adjustment, hfa]
      rw [if_neg (by simp [hst])]
  · intro db2 reason l hn
    exact applyAdjustmentLine_none hn
  · intro db3 recId r hfr hst
    simp only [complete_stock_reconciliation, hfr]
    rw [if_neg hst]
  · intro its rl rls hdz hn
    simp only [buildReconAdjustmentItems]
    rw [if_pos hdz, hn]

/-- C8 witness: at `orphanedAdjDB` the hypotheses hold, the success message is
the constant one, and the orphaned line is applied as a no-op. -/
theorem C8_undifferentiated_success_witness :
    adjStatus orphanedAdjDB 1 = some "pending" ∧
    (approve_stock_adjustment orphanedAdjDB 1 "worker").1
      = .ok "Adjustment approved and applied successfully" ∧
    applyAdjustmentLine 1 "loss" "worker" orphanedAdjDB orphanLine = orphanedAdjDB :=
  have h := C8_undifferentiated_success orphanedAdjDB 1 "worker" (by decide)
  ⟨by decide, h.1, h.2.1 orphanedAdjDB "loss" orphanLine (by decide)⟩

/-! ## Claim C9 — ledger query pagination -/

/-- C9: for every store, filter, `page ≥ 1` and `1 ≤ limit ≤ 100`, the ledger
query returns the count of matching entries as `total`, echoes `page` and
`limit`, computes `total_pages = ⌈total / limit⌉`, and returns entries ordered
by creation time descending. -/
theorem C9_ledger_query (db : DB) (q : LedgerQuery) (page limit : Nat)
    (_hp : 1 ≤ page) (_hl1 : 1 ≤ limit) (_hl2 : limit ≤ 100) :
    (get_stock_ledger db q page limit).total
      = (db.stock_ledger.filter (matchesQuery q)).length ∧
    (get_stock_ledger db q page limit).page = page ∧
    (get_stock_ledger db q page limit).limit = limit ∧
    (get_stock_ledger db q page limit).total_pages
      = (get_stock_ledger db q page limit).total ⌈/⌉ limit ∧
    List.Sorted newerFirst (get_stock_ledger db q page limit).entries := by
  refine ⟨rfl, rfl, rfl, ?_, ?_⟩
  · rw [Nat.ceilDiv_eq_add_pred_div]
    rfl
  · show List.Sorted newerFirst
      ((((db.stock_ledger.filter (matchesQuery q)).insertionSort
        newerFirst).drop ((page - 1) * limit)).take limit)
    exact List.Pairwise.sublist
      ((List.take_sublist _ _).trans (List.drop_sublist _ _))
      (List.sorted_insertionSort newerFirst _)

/-- C9 witness: the two-item store of `queryRun` (three ledger entries, two of
them gold) queried for gold with `page = 1`, `limit = 2`. -/
theorem C9_ledger_query_witness :
    (get_stock_ledger (runOps (initDB 2026) queryRun) goldQuery 1 2).total = 2 ∧
    (get_stock_ledger (runOps (initDB 2026) queryRun) goldQuery 1 2).page = 1 ∧
    (get_stock_ledger (runOps (initDB 2026) queryRun) goldQuery 1 2).total_pages = 1 ∧
    List.Sorted newerFirst
      (get_stock_ledger (runOps (initDB 2026) queryRun) goldQuery 1 2).entries :=
  have h := C9_ledger_query (runOps (initDB 2026) queryRun) goldQuery 1 2
    (by decide) (by decide) (by decide)
  ⟨h.1.trans (by decide), h.2.1, h.2.2.2.1.trans (by decide), h.2.2.2.2⟩

/-! ## Claim C10 — unknown transaction type: reachable failure after persist -/

/-- C10: for every `create_transaction` request whose `transaction_type` is
outside `{sale, issue, return}` and whose item exists, neither ledger branch
runs, the `Transaction` document is nevertheless inserted, and the handler
then hits the unbound local `ledger_entry` (the Python `NameError`): the call
fails with the transaction already stored and ledger and items untouched —
the error branch is reachable and the failure is not atomic. -/
theorem C10_unbound_ledger_entry (db : DB) (d : TransactionCreate) (actor : String)
    (item : Item) (hit : find_item db.items d.item_id = some item)
    (h1 : d.transaction_type ≠ "sale") (h2 : d.transaction_type ≠ "issue")
    (h3 : d.transaction_type ≠ "return") :
    (create_transaction db d actor).1 = .error .unboundLocalLedgerEntry ∧
    (create_transaction db d actor).2.transactions
      = db.transactions ++
        [{ id := db.next_id, transaction_type := d.transaction_type,
           item_id := d.item_id, quantity := d.quantity, amount := d.amount,
           notes := d.notes, created_by := actor, created_at := db.clock }] ∧
    (create_transaction db d actor).2.stock_ledger = db.stock_ledger ∧
    (create_transaction db d actor).2.items = db.items := by
  simp only [create_transaction, hit]
  rw [if_neg (not_or.mpr ⟨h1, h2⟩), if_neg h3]
  exact ⟨rfl, rfl, rfl, rfl⟩

/-- C10 witness: a `transfer` request against the existing item of `c5DB`
fails with the unbound-local error while its transaction is persisted. -/
theorem C10_unbound_ledger_entry_witness :
    (create_transaction c5DB
        { transaction_type := "transfer", item_id := 1, quantity := 1,
          amount := none, notes := none } "clerk").1
      = .error .unboundLocalLedgerEntry ∧
    (create_transaction c5DB
        { transaction_type := "transfer", item_id := 1, quantity := 1,
          amount := none, notes := none } "clerk").2.transactions.length = 1 ∧
    (create_transaction c5DB
        { transaction_type := "transfer", item_id := 1, quantity := 1,
          amount := none, notes := none } "clerk").2.stock_ledger = [] :=
  have h := C10_unbound_ledger_entry c5DB
    { transaction_type := "transfer", item_id := 1, quantity := 1,
      amount := none, notes := none } "clerk" c5Item
    (by decide) (by decide) (by decide) (by decide)
  ⟨h.1, by rw [h.2.1]; rfl, h.2.2.1⟩

end ERP
